import Mathlib

/-!
# OLAPHTTPHandler: request pipeline and exception-to-response mapping

A shallow embedding of `dbms/src/Server/OLAPHTTPHandler.cpp`
(`OLAPHTTPHandler::processQuery` and `OLAPHTTPHandler::handleRequest`).

The handler is glue code around collaborators whose sources live elsewhere
(the Poco HTTP classes, `Context`, the OLAP parser and converter,
`executeQuery`, the quota object, the stopwatch and `double` arithmetic).
Every collaborator is a field of the structure `Server`, so each statement
below holds for all behaviours of the collaborators.  Exceptions are values
of the type `Failure`; the log, the HTTP response and the sequence of
collaborator invocations are explicit state.
-/

namespace DB

/-! ## Exceptions -/

/-- An exception leaving `processQuery`, classified by the first catch clause
of `handleRequest` that matches it: `DB::Exception`, then `Poco::Exception`,
then `std::exception`, then `catch (...)`. -/
inductive Failure where
  /-- A `DB::Exception` with its `code()`, `displayText()` and `what()`. -/
  | Exception (code : Int) (displayText : String) (what : String)
  /-- A `Poco::Exception` that is not a `DB::Exception`. -/
  | PocoException (code : Int) (displayText : String) (what : String)
  /-- A `std::exception` that is not a `Poco::Exception`, with its `what()`. -/
  | stdException (what : String)
  /-- Anything else. -/
  | unknown
  deriving DecidableEq, Repr

/-- The catch clause that handles a failure. -/
inductive Origin where
  | domain
  | library
  | runtime
  | unclassified
  deriving DecidableEq, Repr

/-- The catch clause of `handleRequest` selected by a failure. -/
def Failure.origin : Failure → Origin
  | .Exception _ _ _ => .domain
  | .PocoException _ _ _ => .library
  | .stdException _ => .runtime
  | .unknown => .unclassified

/-- The three members of `ErrorCodes` that `handleRequest` names.  Their
values are declared outside this file, so they are parameters. -/
structure ErrorCodes where
  POCO_EXCEPTION : Int
  STD_EXCEPTION : Int
  UNKNOWN_EXCEPTION : Int
  deriving DecidableEq, Repr

/-! ## Log -/

/-- The priority of a log statement (`LOG_TRACE`, `LOG_DEBUG`, `LOG_INFO`,
`LOG_ERROR`). -/
inductive LogLevel where
  | trace
  | debug
  | info
  | error
  deriving DecidableEq, Repr

/-- One emitted log statement. -/
structure LogEntry where
  level : LogLevel
  text : String
  deriving DecidableEq, Repr

/-! ## HTTP request and response -/

/-- What the handler reads from a `Poco::Net::HTTPServerRequest`. -/
structure HTTPServerRequest where
  /-- The result of `getVersion()`. -/
  version : String
  /-- The result of `getURI()`. -/
  uri : String
  /-- The content of `stream()`. -/
  body : String
  /-- The value `none` stands for `hasCredentials() = false`; otherwise the
  result of constructing `Poco::Net::HTTPBasicCredentials` from the request:
  user name and password, or the exception the constructor throws. -/
  credentials : Option (Except Failure (String × String))
  /-- The result of `clientAddress().host()`. -/
  clientHost : String

/-- The constant `Poco::Net::HTTPServerRequest::HTTP_1_1`. -/
def HTTP_1_1 : String := "HTTP/1.1"

/-- The constant `Poco::Net::HTTPResponse::HTTP_INTERNAL_SERVER_ERROR`. -/
def HTTP_INTERNAL_SERVER_ERROR : Nat := 500

/-- The constant `Poco::Net::HTTPResponse::HTTP_OK`, the status of a new
response. -/
def HTTP_OK : Nat := 200

/-- The state of a `Poco::Net::HTTPServerResponse`. -/
structure HTTPServerResponse where
  /-- The status field, as set by `setStatusAndReason`. -/
  status : Nat
  /-- The flag set by `setChunkedTransferEncoding`. -/
  chunkedTransferEncoding : Bool
  /-- The status line written to the client by `send()`; `none` until
  `send()` has been called. -/
  sentStatus : Option Nat
  /-- The bytes written to the stream returned by `send()`. -/
  body : String
  deriving DecidableEq, Repr

namespace HTTPServerResponse

/-- A response no handler has touched yet. -/
def fresh : HTTPServerResponse :=
  { status := HTTP_OK, chunkedTransferEncoding := false, sentStatus := none, body := "" }

/-- The method `sent()`: whether `send()` has been called. -/
def sent (response : HTTPServerResponse) : Bool :=
  response.sentStatus.isSome

/-- The method `setChunkedTransferEncoding(flag)`. -/
def setChunkedTransferEncoding (response : HTTPServerResponse) (flag : Bool) :
    HTTPServerResponse :=
  { response with chunkedTransferEncoding := flag }

/-- The method `setStatusAndReason(status)`: assigns the status field,
whether or not the header has been sent. -/
def setStatusAndReason (response : HTTPServerResponse) (status : Nat) :
    HTTPServerResponse :=
  { response with status := status }

/-- The method `send()`: writes the header with the current status and gives
access to the body stream.  Poco does not allow a second call, and the handler
tests `sent()` before it calls `send()`; a second call changes nothing here. -/
def send (response : HTTPServerResponse) : HTTPServerResponse :=
  match response.sentStatus with
  | some _ => response
  | none => { response with sentStatus := some response.status }

/-- Writing `bytes` to the body stream. -/
def write (response : HTTPServerResponse) (bytes : String) : HTTPServerResponse :=
  { response with body := response.body ++ bytes }

end HTTPServerResponse

/-! ## Collaborators -/

/-- What one call of `executeQuery(in, out, context, query_plan)` does, as far
as the handler can observe it, together with the reading of the stopwatch
that runs around the call. -/
structure ExecuteResult (Context BlockInputStream Double : Type) where
  /-- The bytes that `WriteBufferFromHTTPServerResponse out(response)` has
  flushed to the response when control leaves the scope of `out`; `none` when
  it never flushed, in which case it never called `response.send()`. -/
  flushed : Option String
  /-- The context after the call (it is passed by reference). -/
  context : Context
  /-- The value of `query_plan` after the call. -/
  query_plan : Option BlockInputStream
  /-- The exception thrown by the call, if any. -/
  exception : Option Failure
  /-- The result of `watch.elapsedSeconds()` after `watch.stop()`. -/
  elapsedSeconds : Double

/-- Everything `processQuery` and `handleRequest` call that is declared
outside `OLAPHTTPHandler.cpp`. -/
structure Server where
  /-- The class `Context`. -/
  Context : Type
  /-- The class `OLAP::QueryParseResult`. -/
  QueryParseResult : Type
  /-- The class behind `BlockInputStreamPtr`. -/
  BlockInputStream : Type
  /-- The class `QuotaForIntervals`. -/
  QuotaForIntervals : Type
  /-- The class `HTMLForm`. -/
  HTMLForm : Type
  /-- The type `double`. -/
  Double : Type
  /-- The members of `ErrorCodes` used by `handleRequest`. -/
  codes : ErrorCodes
  /-- The member `server.global_context`. -/
  global_context : Context
  /-- The constructor `HTMLForm params(request)`, which reads the form from
  the query string of the request URI, or the exception it throws when the
  URI is malformed. -/
  readForm : String → Except Failure HTMLForm
  /-- The method `params.get(name, defaultValue)`. -/
  get : HTMLForm → String → String → String
  /-- The method `context.setGlobalContext(global)`. -/
  setGlobalContext : Context → Context → Context
  /-- The method `context.setUser(user, password, host, quota_key)`. -/
  setUser : Context → String → String → String → String → Except Failure Context
  /-- The method `server.olap_parser->parse(stream)`. -/
  parse : String → Except Failure QueryParseResult
  /-- The method `server.olap_converter->OLAPServerQueryToClickhouse(query,
  context, out)`: the converted query and the context after the call. -/
  OLAPServerQueryToClickhouse :
    QueryParseResult → Context → Except Failure (String × Context)
  /-- The function `executeQuery(in, out, context, query_plan)`, given the
  query text and the context. -/
  executeQuery : String → Context → ExecuteResult Context BlockInputStream Double
  /-- The text that `query_plan->dumpTree(stream)` writes. -/
  dumpTree : BlockInputStream → String
  /-- The rows and bytes that `query_plan->getLeafRowsBytes(rows, bytes)`
  stores. -/
  getLeafRowsBytes : BlockInputStream → Nat × Nat
  /-- The method `context.getQuota()`. -/
  getQuota : Context → QuotaForIntervals
  /-- The method `quota.empty()`. -/
  empty : QuotaForIntervals → Bool
  /-- The method `quota.toString()`. -/
  quotaToString : QuotaForIntervals → String
  /-- The conversion of a `size_t` to `double`. -/
  ofSizeT : Nat → Double
  /-- The literal `1048576.0`. -/
  mebi : Double
  /-- The division of two `double` values. -/
  div : Double → Double → Double
  /-- The conversion `static_cast<size_t>` of a `double`. -/
  toSizeT : Double → Nat
  /-- The text that inserting a `double` writes to a stream under
  `std::fixed << std::setprecision(3)`. -/
  fixed3 : Double → String

/-- One invocation of a collaborator, with the arguments that matter. -/
inductive Call where
  | setUser (user password host quota_key : String)
  | parse (body : String)
  | OLAPServerQueryToClickhouse
  | executeQuery (query : String)
  | dumpTree
  | getLeafRowsBytes
  | getQuota
  deriving DecidableEq, Repr

/-- Whether an invocation is a call of `context.setUser`. -/
def Call.isSetUser : Call → Bool
  | .setUser _ _ _ _ => true
  | _ => false

/-- The state when control leaves `processQuery` or `handleRequest`: the
response, the log, the collaborator invocations, and the local variables
`context`, `query_plan` and `watch` of `processQuery`. -/
structure Outcome (Context BlockInputStream Double : Type) where
  /-- The HTTP response. -/
  response : HTTPServerResponse
  /-- The log statements emitted, oldest first. -/
  log : List LogEntry
  /-- The collaborator invocations made, oldest first. -/
  calls : List Call
  /-- The local variable `context`, once `setUser` has returned. -/
  context : Option Context
  /-- The local variable `query_plan` when `processQuery` returns, `none`
  being the null pointer; also `none` when an exception propagates. -/
  query_plan : Option BlockInputStream
  /-- The reading `watch.elapsedSeconds()` when `processQuery` returns; `none`
  when an exception propagates. -/
  watch : Option Double
  /-- The exception that propagates out, if any. -/
  exception : Option Failure

/-! ## processQuery -/

/-- The text of the statistics statement (lines 83 to 85). -/
def statisticsText (server : Server) (rows bytes : Nat) (elapsedSeconds : server.Double) :
    String :=
  "Read " ++ toString rows ++ " rows, "
    ++ server.fixed3 (server.div (server.ofSizeT bytes) server.mebi) ++ " MiB in "
    ++ server.fixed3 elapsedSeconds ++ " sec., "
    ++ toString (server.toSizeT (server.div (server.ofSizeT rows) elapsedSeconds))
    ++ " rows/sec., "
    ++ server.fixed3
        (server.div (server.div (server.ofSizeT bytes) server.mebi) elapsedSeconds)
    ++ " MiB/sec."

/-- The block `if (query_plan) ...` (lines 68 to 87): the log statements it
emits. -/
def planLog (server : Server) (query_plan : Option server.BlockInputStream)
    (elapsedSeconds : server.Double) : List LogEntry :=
  match query_plan with
  | none => []
  | some plan =>
    let rows := (server.getLeafRowsBytes plan).1
    let bytes := (server.getLeafRowsBytes plan).2
    LogEntry.mk .debug ("Query pipeline:\n" ++ server.dumpTree plan)
      :: (if rows ≠ 0 then
            [LogEntry.mk .info (statisticsText server rows bytes elapsedSeconds)]
          else [])

/-- The collaborator invocations of the block `if (query_plan) ...`. -/
def planCalls (server : Server) (query_plan : Option server.BlockInputStream) : List Call :=
  match query_plan with
  | none => []
  | some _ => [Call.dumpTree, Call.getLeafRowsBytes]

/-- The last statements of `processQuery` (lines 89 to 91): the log statements
they emit. -/
def quotaLog (server : Server) (context : server.Context) : List LogEntry :=
  let quota := server.getQuota context
  if !server.empty quota then
    [LogEntry.mk .info ("Quota:\n" ++ server.quotaToString quota)]
  else []

/-- The effect on the response of the write buffer `out` wrapped around it:
the first flush calls `response.send()`, every flush writes to its stream. -/
def flush (response : HTTPServerResponse) (flushed : Option String) : HTTPServerResponse :=
  match flushed with
  | none => response
  | some bytes => response.send.write bytes

/-- The method `OLAPHTTPHandler::processQuery`. -/
def processQuery (server : Server) (request : HTTPServerRequest)
    (response : HTTPServerResponse) :
    Outcome server.Context server.BlockInputStream server.Double :=
  match server.readForm request.uri with
  | .error e =>
    { response := response, log := [], calls := [], context := none, query_plan := none,
      watch := none, exception := some e }
  | .ok params =>
    let request_string := request.body
    let log :=
      [ LogEntry.mk .trace ("Request URI: " ++ request.uri),
        LogEntry.mk .trace ("Request body: " ++ request_string) ]
    let user := server.get params "user" "default"
    let password := server.get params "password" ""
    let quota_key := server.get params "quota_key" ""
    let credentials : Except Failure (String × String) :=
      match request.credentials with
      | none => .ok (user, password)
      | some c => c
    match credentials with
    | .error e =>
      { response := response, log := log, calls := [], context := none, query_plan := none,
        watch := none, exception := some e }
    | .ok (user, password) =>
      let context := server.setGlobalContext server.global_context server.global_context
      let calls := [Call.setUser user password request.clientHost quota_key]
      match server.setUser context user password request.clientHost quota_key with
      | .error e =>
        { response := response, log := log, calls := calls, context := none,
          query_plan := none, watch := none, exception := some e }
      | .ok context =>
        let calls := calls ++ [Call.parse request_string]
        match server.parse request_string with
        | .error e =>
          { response := response, log := log, calls := calls, context := some context,
            query_plan := none, watch := none, exception := some e }
        | .ok olap_query =>
          let calls := calls ++ [Call.OLAPServerQueryToClickhouse]
          match server.OLAPServerQueryToClickhouse olap_query context with
          | .error e =>
            { response := response, log := log, calls := calls, context := some context,
              query_plan := none, watch := none, exception := some e }
          | .ok (clickhouse_query, context) =>
            let log :=
              log ++ [LogEntry.mk .trace ("Converted query: " ++ clickhouse_query)]
            let calls := calls ++ [Call.executeQuery clickhouse_query]
            let result := server.executeQuery clickhouse_query context
            let response := flush response result.flushed
            let context := result.context
            match result.exception with
            | some e =>
              { response := response, log := log, calls := calls,
                context := some context, query_plan := none, watch := none,
                exception := some e }
            | none =>
              { response := response,
                log := log ++ planLog server result.query_plan result.elapsedSeconds
                  ++ quotaLog server context,
                calls := calls ++ planCalls server result.query_plan ++ [Call.getQuota],
                context := some context,
                query_plan := result.query_plan,
                watch := some result.elapsedSeconds,
                exception := none }

/-! ## handleRequest -/

/-- The text `s.str()` built by the catch clause that handles the failure
(lines 110, 120, 130 and 139). -/
def errorText (codes : ErrorCodes) : Failure → String
  | .Exception code displayText what =>
    "Code: " ++ toString code
      ++ ", e.displayText() = " ++ displayText ++ ", e.what() = " ++ what
  | .PocoException code displayText what =>
    "Code: " ++ toString codes.POCO_EXCEPTION ++ ", e.code() = " ++ toString code
      ++ ", e.displayText() = " ++ displayText ++ ", e.what() = " ++ what
  | .stdException what =>
    "Code: " ++ toString codes.STD_EXCEPTION ++ ". " ++ what
  | .unknown =>
    "Code: " ++ toString codes.UNKNOWN_EXCEPTION ++ ". Unknown exception."

/-- The integer that the catch clause handling the failure inserts right
after `Code: `. -/
def reportedCode (codes : ErrorCodes) : Failure → Int
  | .Exception code _ _ => code
  | .PocoException _ _ _ => codes.POCO_EXCEPTION
  | .stdException _ => codes.STD_EXCEPTION
  | .unknown => codes.UNKNOWN_EXCEPTION

/-- The body shared by the four catch clauses of `handleRequest`, given the
text `s.str()` of the clause. -/
def catchClause (response : HTTPServerResponse) (s : String) :
    HTTPServerResponse × List LogEntry :=
  let response := response.setStatusAndReason HTTP_INTERNAL_SERVER_ERROR
  let response := if !response.sent then response.send.write (s ++ "\n") else response
  (response, [LogEntry.mk .error s])

/-- The first statement of `handleRequest` (lines 98 and 99). -/
def keepAlive (request : HTTPServerRequest) (response : HTTPServerResponse) :
    HTTPServerResponse :=
  if request.version = HTTP_1_1 then response.setChunkedTransferEncoding true
  else response

/-- The method `OLAPHTTPHandler::handleRequest`. -/
def handleRequest (server : Server) (request : HTTPServerRequest)
    (response : HTTPServerResponse) :
    Outcome server.Context server.BlockInputStream server.Double :=
  let r := processQuery server request (keepAlive request response)
  match r.exception with
  | none =>
    { r with log := r.log ++ [LogEntry.mk .info "Done processing query"] }
  | some e =>
    let c := catchClause r.response (errorText server.codes e)
    { r with response := c.1, log := r.log ++ c.2, exception := none }

/-! ## Floating point

The handler computes the throughput figures in `double`.  The operations are
fields of `Server`; what the statements about the figures need of them is
collected here: every operation of binary64 in round-to-nearest returns the
exact result within the relative error `unitRoundoff`, as long as the result
neither overflows nor underflows. -/

/-- The numeral with three decimals for a number of thousandths. -/
def decimal3 (n : Nat) : String :=
  toString (n / 1000) ++ "." ++ toString (n / 100 % 10) ++ toString (n / 10 % 10)
    ++ toString (n % 10)

/-- The unit roundoff of binary64. -/
def unitRoundoff : ℚ := 1 / 2 ^ 53

/-- The properties of `double` arithmetic the throughput figures rest on, for
a relation `value d x` that reads: `d` is a finite `double`, other than
negative zero, whose value is the rational number `x`. -/
structure DoubleLaws (server : Server) (value : server.Double → ℚ → Prop) : Prop where
  /-- A `size_t` converts to the nearest `double`. -/
  ofSizeT : ∀ n : Nat, n < 2 ^ 64 →
    ∃ x : ℚ, value (server.ofSizeT n) x ∧
      (1 - unitRoundoff) * n ≤ x ∧ x ≤ (1 + unitRoundoff) * n
  /-- The literal `1048576.0` is exact. -/
  mebi : value server.mebi 1048576
  /-- A quotient that is zero, or lies between `2 ^ -200` and `2 ^ 200`, is
  rounded to the nearest `double`. -/
  div : ∀ (a b : server.Double) (x y : ℚ), value a x → value b y → 0 ≤ x → 0 < y →
    (x = 0 ∨ (1 / 2 ^ 200 ≤ x / y ∧ x / y ≤ 2 ^ 200)) →
    ∃ z : ℚ, value (server.div a b) z ∧
      (1 - unitRoundoff) * (x / y) ≤ z ∧ z ≤ (1 + unitRoundoff) * (x / y)
  /-- The conversion `static_cast<size_t>` of a non-negative `double` below
  `2 ^ 64` drops the fractional part. -/
  toSizeT : ∀ (d : server.Double) (x : ℚ), value d x → 0 ≤ x → x < 2 ^ 64 →
    (server.toSizeT d : ℚ) ≤ x ∧ x < server.toSizeT d + 1
  /-- Under `std::fixed << std::setprecision(3)` a non-negative `double` is
  written as a nearest numeral with three decimals. -/
  fixed3 : ∀ (d : server.Double) (x : ℚ), value d x → 0 ≤ x →
    ∃ n : Nat, server.fixed3 d = decimal3 n ∧
      (n : ℚ) - 1 / 2 ≤ 1000 * x ∧ 1000 * x ≤ (n : ℚ) + 1 / 2

/-! ## The error body as the interface documentation words it -/

/-- The error body `"Code: <code>, e.displayText() = <text>, e.what() = <detail>"`
of the wire-protocol description, followed by a line end. -/
def documentedErrorBody (code : Int) (text detail : String) : String :=
  "Code: " ++ toString code ++ ", e.displayText() = " ++ text ++ ", e.what() = " ++ detail
    ++ "\n"

/-- The statistics statement as the instrumentation property words it: like
`statisticsText`, with the rows/sec figure being the quotient itself, written
with three decimals like the other fractional figures. -/
def documentedStatisticsText (server : Server) (rows bytes : Nat)
    (elapsedSeconds : server.Double) : String :=
  "Read " ++ toString rows ++ " rows, "
    ++ server.fixed3 (server.div (server.ofSizeT bytes) server.mebi) ++ " MiB in "
    ++ server.fixed3 elapsedSeconds ++ " sec., "
    ++ server.fixed3 (server.div (server.ofSizeT rows) elapsedSeconds)
    ++ " rows/sec., "
    ++ server.fixed3
        (server.div (server.div (server.ofSizeT bytes) server.mebi) elapsedSeconds)
    ++ " MiB/sec."

/-! ## A concrete server

Small executable collaborators, used to run the handler on concrete
requests. -/

namespace Sample

/-- A non-negative fraction.  Fractions stand in for `double` in the concrete
server: arithmetic without rounding error, which is what binary64 computes
whenever the operands and the result are representable. -/
structure Fraction where
  num : Nat
  den : Nat
  deriving DecidableEq, Repr

/-- The quotient of two fractions. -/
def Fraction.div (a b : Fraction) : Fraction :=
  { num := a.num * b.den, den := a.den * b.num }

/-- The integer part of a fraction. -/
def Fraction.toSizeT (a : Fraction) : Nat :=
  a.num / a.den

/-- The number of thousandths nearest to a fraction, ties to even. -/
def Fraction.thousandths (a : Fraction) : Nat :=
  let q := a.num * 1000 / a.den
  let r := a.num * 1000 % a.den
  if a.den < 2 * r ∨ (a.den = 2 * r ∧ q % 2 = 1) then q + 1 else q

/-- A fraction written with three decimals; a fraction with denominator zero
stands for the result of a division by zero. -/
def Fraction.fixed3 (a : Fraction) : String :=
  if a.den = 0 then (if a.num = 0 then "nan" else "inf")
  else decimal3 a.thousandths

/-- The rational number a fraction stands for, when its denominator is not
zero. -/
def value (a : Fraction) (x : ℚ) : Prop :=
  a.den ≠ 0 ∧ x = (a.num : ℚ) / (a.den : ℚ)

/-- Splits a list of characters at every occurrence of a separator. -/
def splitAtChar (sep : Char) : List Char → List (List Char)
  | [] => [[]]
  | c :: cs =>
    if c = sep then [] :: splitAtChar sep cs
    else
      match splitAtChar sep cs with
      | [] => [[c]]
      | w :: ws => (c :: w) :: ws

/-- The part of a URI after its first question mark, up to the fragment. -/
def queryString : List Char → List Char
  | [] => []
  | c :: cs => if c = '?' then cs.takeWhile (fun d => d != '#') else queryString cs

/-- The value of a hexadecimal digit. -/
def hexValue (c : Char) : Option Nat :=
  if '0' ≤ c ∧ c ≤ '9' then some (c.toNat - 48)
  else if 'a' ≤ c ∧ c ≤ 'f' then some (c.toNat - 87)
  else if 'A' ≤ c ∧ c ≤ 'F' then some (c.toNat - 55)
  else none

/-- The exception for a malformed escape sequence. -/
def badEscape : Failure :=
  .PocoException 0 "Syntax error: URI encoding: not a valid hexadecimal digit" "Syntax error"

/-- The decoding of a name or value: a plus sign is a space, a percent sign
followed by two hexadecimal digits is the character with that code, and any
other percent sign is an error. -/
def decode : List Char → Except Failure (List Char)
  | [] => .ok []
  | c :: cs =>
    if c = '%' then
      match cs with
      | a :: b :: rest =>
        match hexValue a, hexValue b, decode rest with
        | some h, some l, .ok decoded => .ok (Char.ofNat (16 * h + l) :: decoded)
        | some _, some _, .error e => .error e
        | _, _, _ => .error badEscape
      | _ => .error badEscape
    else
      match decode cs with
      | .ok decoded => .ok ((if c = '+' then ' ' else c) :: decoded)
      | .error e => .error e

/-- One `name=value` item of a query string, decoded. -/
def nameValue (item : List Char) : Except Failure (String × String) :=
  match decode (item.takeWhile (fun c => c != '=')),
    decode ((item.dropWhile (fun c => c != '=')).drop 1) with
  | .ok name, .ok value => .ok (String.mk name, String.mk value)
  | .error e, _ => .error e
  | _, .error e => .error e

/-- The decoded items of a list of items, or the first exception. -/
def nameValues : List (List Char) → Except Failure (List (String × String))
  | [] => .ok []
  | item :: items =>
    match nameValue item, nameValues items with
    | .ok pair, .ok pairs => .ok (pair :: pairs)
    | .error e, _ => .error e
    | _, .error e => .error e

/-- The `name=value` items of the query string of a URI, or the exception for
a malformed escape sequence. -/
def readForm (uri : String) : Except Failure (List (String × String)) :=
  nameValues ((splitAtChar '&' (queryString uri.data)).filter (fun item => !item.isEmpty))

/-- The first value bound to a name, or the default value. -/
def get (params : List (String × String)) (name defaultValue : String) : String :=
  (params.lookup name).getD defaultValue

/-- The result of `executeQuery` in the concrete server. -/
abbrev Result : Type := ExecuteResult (String × String) (Nat × Nat) Fraction

/-- A server whose context is the pair of user name and quota key, whose
quota snapshot is the quota key, whose execution plans are pairs of rows and
bytes, and which accepts every user but `nobody`. -/
def server (parse : String → Except Failure String)
    (executeQuery : String → String × String → Result) : Server where
  Context := String × String
  QueryParseResult := String
  BlockInputStream := Nat × Nat
  QuotaForIntervals := String
  HTMLForm := List (String × String)
  Double := Fraction
  codes := { POCO_EXCEPTION := 1000, STD_EXCEPTION := 1001, UNKNOWN_EXCEPTION := 1002 }
  global_context := ("", "")
  readForm := readForm
  get := get
  setGlobalContext := fun context _ => context
  setUser := fun _ user _ _ quota_key =>
    if user = "nobody" then .error (.Exception 192 "Unknown user nobody" "DB::Exception")
    else .ok (user, quota_key)
  parse := parse
  OLAPServerQueryToClickhouse := fun query context => .ok ("SELECT " ++ query, context)
  executeQuery := executeQuery
  dumpTree := fun _ => "Leaf\n"
  getLeafRowsBytes := fun plan => plan
  getQuota := fun context => context.2
  empty := fun quota => quota.isEmpty
  quotaToString := fun quota => quota
  ofSizeT := fun n => { num := n, den := 1 }
  mebi := { num := 1048576, den := 1 }
  div := Fraction.div
  toSizeT := Fraction.toSizeT
  fixed3 := Fraction.fixed3

/-- A parser that accepts every body. -/
def parseAny (body : String) : Except Failure String :=
  .ok body

/-- An execution that writes `output`, reads `rows` rows and `bytes` bytes,
and takes `seconds` seconds. -/
def run (output : String) (rows bytes seconds : Nat) (_query : String)
    (context : String × String) : Result :=
  { flushed := some output, context := context, query_plan := some (rows, bytes),
    exception := none, elapsedSeconds := { num := seconds, den := 1 } }

/-- An execution that writes `bytes` and then throws `e`. -/
def runThenThrow (bytes : Option String) (e : Failure) (_query : String)
    (context : String × String) : Result :=
  { flushed := bytes, context := context, query_plan := none, exception := some e,
    elapsedSeconds := { num := 0, den := 1 } }

/-- A request without credentials. -/
def request (uri body : String) : HTTPServerRequest :=
  { version := "HTTP/1.1", uri := uri, body := body, credentials := none,
    clientHost := "127.0.0.1" }

/-- A server whose execution writes one line and then runs out of memory. -/
def lateFailure : Server :=
  server parseAny
    (runThenThrow (some "1\n") (.Exception 241 "Memory limit exceeded" "DB::Exception"))

/-- A server whose parser throws a `std::exception`. -/
def parserBadAlloc : Server :=
  server (fun _ => .error (.stdException "std::bad_alloc")) (run "" 0 0 1)

/-- A server whose parser throws a `Poco::Exception` with code 7. -/
def parserPoco : Server :=
  server (fun _ => .error (.PocoException 7 "SAXParseException" "Exception"))
    (run "" 0 0 1)

/-- A server whose execution reads three rows and three mebibytes in two
seconds. -/
def threeRows : Server :=
  server parseAny (run "1\n2\n3\n" 3 3145728 2)

/-- A server whose execution has a plan that read no rows. -/
def noRows : Server :=
  server parseAny (run "" 0 0 1)

/-- A request with HTTP Basic credentials. -/
def requestWithCredentials (uri body user password : String) : HTTPServerRequest :=
  { version := "HTTP/1.1", uri := uri, body := body,
    credentials := some (.ok (user, password)), clientHost := "127.0.0.1" }

end Sample

/-! ## Properties -/

/-! ### C1 -/

/-- C1: `processQuery` calls `setUser` exactly once, unless constructing the
form or the Basic credentials throws, in which case it does not call it; user
and password are those of the HTTP Basic credentials when the request has
credentials, and otherwise the `user` and `password` parameters with the
defaults `default` and the empty string; the quota key is the `quota_key`
parameter with the empty default in both cases. -/
theorem C1_identity_bound (server : Server) (request : HTTPServerRequest)
    (response : HTTPServerResponse) :
    (processQuery server request response).calls.filter Call.isSetUser =
      match server.readForm request.uri with
      | .error _ => []
      | .ok params =>
        match request.credentials with
        | some (.ok (user, password)) =>
          [Call.setUser user password request.clientHost
            (server.get params "quota_key" "")]
        | some (.error _) => []
        | none =>
          [Call.setUser (server.get params "user" "default")
            (server.get params "password" "") request.clientHost
            (server.get params "quota_key" "")] := by
  unfold processQuery
  rcases hf : server.readForm request.uri with e | params
  · simp
  · rcases hc : request.credentials with _ | (e | ⟨user, password⟩) <;> simp only [] <;>
      (repeat' split) <;> simp_all [Call.isSetUser, planCalls, List.filter] <;>
      (cases (server.executeQuery _ _).query_plan <;> simp [Call.isSetUser])

/-! ### The two ways out of handleRequest -/

theorem handleRequest_of_exception (server : Server) (request : HTTPServerRequest)
    (response : HTTPServerResponse) (e : Failure)
    (h : (processQuery server request (keepAlive request response)).exception = some e) :
    handleRequest server request response =
      { processQuery server request (keepAlive request response) with
        response :=
          (catchClause (processQuery server request (keepAlive request response)).response
            (errorText server.codes e)).1,
        log := (processQuery server request (keepAlive request response)).log
          ++ [LogEntry.mk .error (errorText server.codes e)],
        exception := none } := by
  simp [handleRequest, h, catchClause]

theorem handleRequest_of_success (server : Server) (request : HTTPServerRequest)
    (response : HTTPServerResponse)
    (h : (processQuery server request (keepAlive request response)).exception = none) :
    handleRequest server request response =
      { processQuery server request (keepAlive request response) with
        log := (processQuery server request (keepAlive request response)).log
          ++ [LogEntry.mk .info "Done processing query"] } := by
  simp [handleRequest, h]

theorem catchClause_status (response : HTTPServerResponse) (s : String) :
    (catchClause response s).1.status = HTTP_INTERNAL_SERVER_ERROR := by
  unfold catchClause HTTPServerResponse.sent HTTPServerResponse.send
    HTTPServerResponse.setStatusAndReason HTTPServerResponse.write
  cases response.sentStatus <;> rfl

theorem catchClause_of_sent (response : HTTPServerResponse) (s : String)
    (h : response.sent = true) :
    (catchClause response s).1 = response.setStatusAndReason HTTP_INTERNAL_SERVER_ERROR := by
  unfold HTTPServerResponse.sent at h
  unfold catchClause HTTPServerResponse.sent HTTPServerResponse.send
    HTTPServerResponse.setStatusAndReason HTTPServerResponse.write
  cases hs : response.sentStatus with
  | none => simp [hs] at h
  | some n => rfl

theorem catchClause_of_not_sent (response : HTTPServerResponse) (s : String)
    (h : response.sent = false) :
    (catchClause response s).1 =
      { status := HTTP_INTERNAL_SERVER_ERROR,
        chunkedTransferEncoding := response.chunkedTransferEncoding,
        sentStatus := some HTTP_INTERNAL_SERVER_ERROR,
        body := response.body ++ (s ++ "\n") } := by
  unfold HTTPServerResponse.sent at h
  unfold catchClause HTTPServerResponse.sent HTTPServerResponse.send
    HTTPServerResponse.setStatusAndReason HTTPServerResponse.write
  cases hs : response.sentStatus with
  | none => rfl
  | some n => simp [hs] at h

theorem planLog_level (server : Server) (plan : Option server.BlockInputStream)
    (t : server.Double) : ∀ entry ∈ planLog server plan t, entry.level ≠ .error := by
  intro entry h
  cases plan with
  | none => simp [planLog] at h
  | some p =>
    simp only [planLog, List.mem_cons] at h
    rcases h with h | h
    · simp [h]
    · split at h
      · simp only [List.mem_singleton] at h
        simp [h]
      · simp at h

theorem quotaLog_level (server : Server) (context : server.Context) :
    ∀ entry ∈ quotaLog server context, entry.level = .info := by
  intro entry h
  simp only [quotaLog] at h
  split at h
  · simp only [List.mem_singleton] at h
    simp [h]
  · simp at h

theorem processQuery_log_level (server : Server) (request : HTTPServerRequest)
    (response : HTTPServerResponse) :
    ∀ entry ∈ (processQuery server request response).log, entry.level ≠ .error := by
  intro entry h
  unfold processQuery at h
  simp only [] at h
  repeat' split at h
  all_goals
    simp only [List.mem_append, List.mem_cons, List.mem_singleton, List.not_mem_nil,
      or_false, List.cons_append, List.nil_append] at h
  all_goals
    first
      | (rcases h with h | h | h | h | h
         · simp [h]
         · simp [h]
         · simp [h]
         · exact planLog_level _ _ _ _ h
         · rw [quotaLog_level _ _ _ h]; simp)
      | (rcases h with h | h | h <;> simp [h])
      | (rcases h with h | h <;> simp [h])

/-! ### C2 -/

/-- C2, as stated, fails: the execution writes one line, so `response.sent()`
is true, and then throws; `handleRequest` still assigns status 500 to the
response, whose status was 200 until then. -/
theorem C2_status_written_after_sent :
    (processQuery Sample.lateFailure (Sample.request "/" "q")
        (keepAlive (Sample.request "/" "q") .fresh)).exception
      = some (.Exception 241 "Memory limit exceeded" "DB::Exception") ∧
    (processQuery Sample.lateFailure (Sample.request "/" "q")
        (keepAlive (Sample.request "/" "q") .fresh)).response.sent = true ∧
    (processQuery Sample.lateFailure (Sample.request "/" "q")
        (keepAlive (Sample.request "/" "q") .fresh)).response.status = 200 ∧
    (handleRequest Sample.lateFailure (Sample.request "/" "q") .fresh).response.status
      = 500 := by
  decide

/-- C2, amended: on every failure raised by `processQuery`, `handleRequest`
assigns status 500 to the response whether or not `response.sent()` is true.
What happens only while `response.sent()` is false is the call of
`response.send()` and the write of the error body: when the response has been
sent, the status line and the body that went to the client stay as they were;
when it has not, the status line 500 and the error text are sent. -/
theorem C2_status_assigned_send_guarded (server : Server) (request : HTTPServerRequest)
    (response : HTTPServerResponse) (e : Failure)
    (h : (processQuery server request (keepAlive request response)).exception = some e) :
    (handleRequest server request response).response.status = HTTP_INTERNAL_SERVER_ERROR ∧
    ((processQuery server request (keepAlive request response)).response.sent = true →
      (handleRequest server request response).response.sentStatus
          = (processQuery server request (keepAlive request response)).response.sentStatus ∧
      (handleRequest server request response).response.body
          = (processQuery server request (keepAlive request response)).response.body) ∧
    ((processQuery server request (keepAlive request response)).response.sent = false →
      (handleRequest server request response).response.sentStatus
          = some HTTP_INTERNAL_SERVER_ERROR ∧
      (handleRequest server request response).response.body
          = (processQuery server request (keepAlive request response)).response.body
              ++ errorText server.codes e ++ "\n") := by
  rw [handleRequest_of_exception server request response e h]
  refine ⟨catchClause_status _ _, ?_, ?_⟩
  · intro hs
    rw [catchClause_of_sent _ _ hs]
    exact ⟨rfl, rfl⟩
  · intro hs
    rw [catchClause_of_not_sent _ _ hs]
    exact ⟨rfl, by simp [String.append_assoc]⟩

/-- C2, amended, at the request whose execution writes one line and then
throws. -/
theorem C2_status_assigned_send_guarded_witness :
    (processQuery Sample.lateFailure (Sample.request "/" "q")
        (keepAlive (Sample.request "/" "q") .fresh)).exception
      = some (.Exception 241 "Memory limit exceeded" "DB::Exception") ∧
    (handleRequest Sample.lateFailure (Sample.request "/" "q") .fresh).response.status
      = HTTP_INTERNAL_SERVER_ERROR ∧
    (handleRequest Sample.lateFailure (Sample.request "/" "q") .fresh).response.sentStatus
      = some HTTP_OK ∧
    (handleRequest Sample.lateFailure (Sample.request "/" "q") .fresh).response.body
      = "1\n" :=
  ⟨by decide,
    (C2_status_assigned_send_guarded Sample.lateFailure (Sample.request "/" "q") .fresh
      (.Exception 241 "Memory limit exceeded" "DB::Exception") (by decide)).1,
    by decide, by decide⟩

/-! ### C3 -/

/-- C3, as stated, fails: the parser throws a `std::exception` while nothing
has been sent; the error body is `Code: 1001. std::bad_alloc`, which is not of
the form `Code: <code>, e.displayText() = <text>, e.what() = <detail>` for any
code, text and detail. -/
theorem C3_runtime_failure_has_other_body :
    (processQuery Sample.parserBadAlloc (Sample.request "/" "q")
        (keepAlive (Sample.request "/" "q") .fresh)).exception
      = some (.stdException "std::bad_alloc") ∧
    (processQuery Sample.parserBadAlloc (Sample.request "/" "q")
        (keepAlive (Sample.request "/" "q") .fresh)).response.sent = false ∧
    (handleRequest Sample.parserBadAlloc (Sample.request "/" "q") .fresh).response.body
      = "Code: 1001. std::bad_alloc\n" ∧
    ¬ ∃ (code : Int) (text detail : String),
      (handleRequest Sample.parserBadAlloc (Sample.request "/" "q") .fresh).response.body
        = documentedErrorBody code text detail := by
  refine ⟨by decide, by decide, by decide, ?_⟩
  rintro ⟨code, text, detail, h⟩
  have hb : (handleRequest Sample.parserBadAlloc (Sample.request "/" "q")
      .fresh).response.body = "Code: 1001. std::bad_alloc\n" := by decide
  rw [hb] at h
  have hc := congrArg (fun s : String => decide (',' ∈ s.data)) h
  simp [documentedErrorBody] at hc

/-- C3, amended: for every failure raised by `processQuery` while
`response.sent()` is false, `handleRequest` sets the status to 500, sends it,
writes exactly one error body, the text built by the catch clause of the
failure followed by a line end, and records the same text as one error log
entry.  The text has the form
`Code: <code>, e.displayText() = <text>, e.what() = <detail>`, carrying the
code, display text and message of the failure, when the failure is a
`DB::Exception`. -/
theorem C3_error_body_before_send (server : Server) (request : HTTPServerRequest)
    (response : HTTPServerResponse) (e : Failure)
    (h : (processQuery server request (keepAlive request response)).exception = some e)
    (hs : (processQuery server request (keepAlive request response)).response.sent = false) :
    (handleRequest server request response).response.status = HTTP_INTERNAL_SERVER_ERROR ∧
    (handleRequest server request response).response.sentStatus
      = some HTTP_INTERNAL_SERVER_ERROR ∧
    (handleRequest server request response).response.body
      = (processQuery server request (keepAlive request response)).response.body
          ++ errorText server.codes e ++ "\n" ∧
    (handleRequest server request response).log
      = (processQuery server request (keepAlive request response)).log
          ++ [LogEntry.mk .error (errorText server.codes e)] ∧
    ((handleRequest server request response).log.filter
        (fun entry => entry.level = .error)).length = 1 ∧
    ∀ (code : Int) (text detail : String), e = .Exception code text detail →
      errorText server.codes e ++ "\n" = documentedErrorBody code text detail := by
  rw [handleRequest_of_exception server request response e h]
  refine ⟨catchClause_status _ _, ?_, ?_, rfl, ?_, ?_⟩
  · rw [catchClause_of_not_sent _ _ hs]
  · rw [catchClause_of_not_sent _ _ hs]
    simp [String.append_assoc]
  · have hl := processQuery_log_level server request (keepAlive request response)
    simp only [List.filter_append]
    rw [List.filter_eq_nil_iff.mpr (fun entry hm => by simpa using hl entry hm)]
    simp
  · rintro code text detail rfl
    simp [errorText, documentedErrorBody]

/-- C3, amended, at the request whose parser throws a `std::exception`. -/
theorem C3_error_body_before_send_witness :
    (processQuery Sample.parserBadAlloc (Sample.request "/" "q")
        (keepAlive (Sample.request "/" "q") .fresh)).exception
      = some (.stdException "std::bad_alloc") ∧
    (processQuery Sample.parserBadAlloc (Sample.request "/" "q")
        (keepAlive (Sample.request "/" "q") .fresh)).response.sent = false ∧
    (handleRequest Sample.parserBadAlloc (Sample.request "/" "q") .fresh).response.body
      = (processQuery Sample.parserBadAlloc (Sample.request "/" "q")
          (keepAlive (Sample.request "/" "q") .fresh)).response.body
          ++ errorText Sample.parserBadAlloc.codes (.stdException "std::bad_alloc") ++ "\n" :=
  ⟨by decide, by decide,
    (C3_error_body_before_send Sample.parserBadAlloc (Sample.request "/" "q") .fresh
      (.stdException "std::bad_alloc") (by decide) (by decide)).2.2.1⟩

/-! ### C5 -/

/-- C5: for every failure raised by `processQuery` when `response.sent()` is
true, `handleRequest` leaves the body and the status line that went to the
client as they are, and adds exactly one log entry, at error level, with the
error text; it is the only error-level entry of the request. -/
theorem C5_failure_after_send_is_logged_only (server : Server)
    (request : HTTPServerRequest) (response : HTTPServerResponse) (e : Failure)
    (h : (processQuery server request (keepAlive request response)).exception = some e)
    (hs : (processQuery server request (keepAlive request response)).response.sent = true) :
    (handleRequest server request response).response.body
      = (processQuery server request (keepAlive request response)).response.body ∧
    (handleRequest server request response).response.sentStatus
      = (processQuery server request (keepAlive request response)).response.sentStatus ∧
    (handleRequest server request response).log
      = (processQuery server request (keepAlive request response)).log
          ++ [LogEntry.mk .error (errorText server.codes e)] ∧
    ((handleRequest server request response).log.filter
        (fun entry => entry.level = .error)).length = 1 := by
  rw [handleRequest_of_exception server request response e h]
  refine ⟨?_, ?_, rfl, ?_⟩
  · rw [catchClause_of_sent _ _ hs]
    rfl
  · rw [catchClause_of_sent _ _ hs]
    rfl
  · have hl := processQuery_log_level server request (keepAlive request response)
    simp only [List.filter_append]
    rw [List.filter_eq_nil_iff.mpr (fun entry hm => by simpa using hl entry hm)]
    simp

/-- C5, at the request whose execution writes one line and then throws. -/
theorem C5_failure_after_send_is_logged_only_witness :
    (processQuery Sample.lateFailure (Sample.request "/" "q")
        (keepAlive (Sample.request "/" "q") .fresh)).exception
      = some (.Exception 241 "Memory limit exceeded" "DB::Exception") ∧
    (processQuery Sample.lateFailure (Sample.request "/" "q")
        (keepAlive (Sample.request "/" "q") .fresh)).response.sent = true ∧
    (handleRequest Sample.lateFailure (Sample.request "/" "q") .fresh).response.body
      = (processQuery Sample.lateFailure (Sample.request "/" "q")
          (keepAlive (Sample.request "/" "q") .fresh)).response.body :=
  ⟨by decide, by decide,
    (C5_failure_after_send_is_logged_only Sample.lateFailure (Sample.request "/" "q") .fresh
      (.Exception 241 "Memory limit exceeded" "DB::Exception") (by decide) (by decide)).1⟩

/-! ### Printed integers -/

theorem digitChar_toNat (k : Nat) (h : k < 10) : (Nat.digitChar k).toNat - 48 = k := by
  interval_cases k <;> rfl

theorem digitChar_ne_sep (k : Nat) (h : k < 10) :
    Nat.digitChar k ≠ ',' ∧ Nat.digitChar k ≠ '.' ∧ Nat.digitChar k ≠ '-' := by
  interval_cases k <;> decide

theorem toDigitsCore_spec (fuel : Nat) : ∀ n : Nat, n < fuel →
    ∃ digits : List Char,
      (∀ ds, Nat.toDigitsCore 10 fuel n ds = digits ++ ds) ∧
      List.foldl (fun acc c => acc * 10 + (c.toNat - 48)) 0 digits = n ∧
      ∀ c ∈ digits, c ≠ ',' ∧ c ≠ '.' ∧ c ≠ '-' := by
  induction fuel with
  | zero => intro n h; omega
  | succ fuel ih =>
    intro n h
    by_cases h0 : n / 10 = 0
    · refine ⟨[Nat.digitChar (n % 10)], ?_, ?_, ?_⟩
      · intro ds
        simp [Nat.toDigitsCore, h0]
      · have hlt : n % 10 < 10 := Nat.mod_lt _ (by decide)
        simp only [List.foldl_cons, List.foldl_nil, digitChar_toNat _ hlt]
        omega
      · intro c hc
        simp only [List.mem_singleton] at hc
        subst hc
        exact digitChar_ne_sep _ (Nat.mod_lt _ (by decide))
    · obtain ⟨digits, hd, hv, hc⟩ := ih (n / 10) (by omega)
      refine ⟨digits ++ [Nat.digitChar (n % 10)], ?_, ?_, ?_⟩
      · intro ds
        simp [Nat.toDigitsCore, h0, hd]
      · have hlt : n % 10 < 10 := Nat.mod_lt _ (by decide)
        simp only [List.foldl_append, List.foldl_cons, List.foldl_nil, hv,
          digitChar_toNat _ hlt]
        omega
      · intro c hm
        simp only [List.mem_append, List.mem_singleton] at hm
        rcases hm with hm | hm
        · exact hc c hm
        · subst hm
          exact digitChar_ne_sep _ (Nat.mod_lt _ (by decide))

theorem natRepr_spec (n : Nat) :
    List.foldl (fun acc c => acc * 10 + (c.toNat - 48)) 0 (toString n).data = n ∧
    ∀ c ∈ (toString n).data, c ≠ ',' ∧ c ≠ '.' ∧ c ≠ '-' := by
  obtain ⟨digits, hd, hv, hc⟩ := toDigitsCore_spec (n + 1) n (Nat.lt_succ_self n)
  have hs : (toString n).data = digits := by
    show (Nat.repr n).data = digits
    simp [Nat.repr, Nat.toDigits, hd, List.asString]
  rw [hs]
  exact ⟨hv, hc⟩

theorem natRepr_injective (m n : Nat) (h : toString m = toString n) : m = n := by
  have hm := (natRepr_spec m).1
  have hn := (natRepr_spec n).1
  rw [h, hn] at hm
  exact hm.symm

theorem intRepr_data (i : Int) :
    (toString i).data =
      match i with
      | Int.ofNat m => (toString m).data
      | Int.negSucc m => '-' :: (toString (m + 1)).data := by
  cases i <;> rfl

theorem intRepr_chars (i : Int) : ∀ c ∈ (toString i).data, c ≠ ',' ∧ c ≠ '.' := by
  intro c hc
  rw [intRepr_data] at hc
  cases i with
  | ofNat m =>
    have := (natRepr_spec m).2 c hc
    exact ⟨this.1, this.2.1⟩
  | negSucc m =>
    simp only [List.mem_cons] at hc
    rcases hc with hc | hc
    · subst hc
      decide
    · have := (natRepr_spec (m + 1)).2 c hc
      exact ⟨this.1, this.2.1⟩

theorem intRepr_injective (i j : Int) (h : (toString i).data = (toString j).data) : i = j := by
  rw [intRepr_data, intRepr_data] at h
  cases i with
  | ofNat m =>
    cases j with
    | ofNat n =>
      have := natRepr_injective m n (String.ext h)
      simp [this]
    | negSucc n =>
      exfalso
      simp only at h
      have hm : '-' ∈ (toString m).data := by rw [h]; simp
      exact ((natRepr_spec m).2 _ hm).2.2 rfl
  | negSucc m =>
    cases j with
    | ofNat n =>
      exfalso
      simp only at h
      have hm : '-' ∈ (toString n).data := by rw [← h]; simp
      exact ((natRepr_spec n).2 _ hm).2.2 rfl
    | negSucc n =>
      simp only [List.cons.injEq, true_and] at h
      have := natRepr_injective (m + 1) (n + 1) (String.ext h)
      have : m = n := by omega
      simp [this]

theorem append_sep_inj (P : Char → Prop) : ∀ (l₁ l₂ r₁ r₂ : List Char) (a b : Char),
    (∀ x ∈ l₁, P x) → (∀ x ∈ l₂, P x) → ¬ P a → ¬ P b →
    l₁ ++ a :: r₁ = l₂ ++ b :: r₂ → l₁ = l₂ ∧ a = b ∧ r₁ = r₂ := by
  intro l₁
  induction l₁ with
  | nil =>
    intro l₂ r₁ r₂ a b _ h₂ ha _ h
    cases l₂ with
    | nil =>
      simp only [List.nil_append, List.cons.injEq] at h
      exact ⟨rfl, h.1, h.2⟩
    | cons y ys =>
      simp only [List.nil_append, List.cons_append, List.cons.injEq] at h
      exact absurd (h.1 ▸ h₂ y (List.mem_cons_self _ _)) ha
  | cons x xs ih =>
    intro l₂ r₁ r₂ a b h₁ h₂ ha hb h
    cases l₂ with
    | nil =>
      simp only [List.nil_append, List.cons_append, List.cons.injEq] at h
      exact absurd (h.1 ▸ h₁ x (List.mem_cons_self _ _)) hb
    | cons y ys =>
      simp only [List.cons_append, List.cons.injEq] at h
      obtain ⟨hl, hab, hr⟩ := ih ys r₁ r₂ a b
        (fun z hz => h₁ z (List.mem_cons_of_mem _ hz))
        (fun z hz => h₂ z (List.mem_cons_of_mem _ hz)) ha hb h.2
      exact ⟨by rw [h.1, hl], hab, hr⟩

theorem errorText_data (codes : ErrorCodes) (f : Failure) :
    ∃ (code : Int) (sep : Char) (rest : List Char),
      (errorText codes f).data = "Code: ".data ++ ((toString code).data ++ sep :: rest) ∧
      ((∃ c d w, f = .Exception c d w ∧ code = c ∧ sep = ',' ∧
          rest = (" e.displayText() = " ++ d ++ ", e.what() = " ++ w).data) ∨
       (∃ c d w, f = .PocoException c d w ∧ code = codes.POCO_EXCEPTION ∧ sep = ',' ∧
          rest = (" e.code() = " ++ toString c ++ ", e.displayText() = " ++ d
            ++ ", e.what() = " ++ w).data) ∨
       (∃ w, f = .stdException w ∧ code = codes.STD_EXCEPTION ∧ sep = '.' ∧
          rest = ' ' :: w.data) ∨
       (f = .unknown ∧ code = codes.UNKNOWN_EXCEPTION ∧ sep = '.' ∧
          rest = " Unknown exception.".data)) := by
  cases f with
  | Exception c d w =>
    exact ⟨c, ',', _, by simp [errorText, String.data_append],
      Or.inl ⟨c, d, w, rfl, rfl, rfl, rfl⟩⟩
  | PocoException c d w =>
    exact ⟨codes.POCO_EXCEPTION, ',', _, by simp [errorText, String.data_append],
      Or.inr (Or.inl ⟨c, d, w, rfl, rfl, rfl, rfl⟩)⟩
  | stdException w =>
    exact ⟨codes.STD_EXCEPTION, '.', _, by simp [errorText, String.data_append],
      Or.inr (Or.inr (Or.inl ⟨w, rfl, rfl, rfl, rfl⟩))⟩
  | unknown =>
    exact ⟨codes.UNKNOWN_EXCEPTION, '.', _, by simp [errorText, String.data_append],
      Or.inr (Or.inr (Or.inr ⟨rfl, rfl, rfl, rfl⟩))⟩

/-! ### C4 -/

/-- C4: the error texts of two failures handled by different catch clauses
differ, whatever codes and messages the failures carry, given that
`STD_EXCEPTION` and `UNKNOWN_EXCEPTION` are different members of `ErrorCodes`;
and every failure leaves the response with status 500. -/
theorem C4_origin_recoverable_from_text (server : Server)
    (hcodes : server.codes.STD_EXCEPTION ≠ server.codes.UNKNOWN_EXCEPTION) :
    (∀ f g : Failure, f.origin ≠ g.origin →
      errorText server.codes f ≠ errorText server.codes g) ∧
    (∀ (request : HTTPServerRequest) (response : HTTPServerResponse) (e : Failure),
      (processQuery server request (keepAlive request response)).exception = some e →
      (handleRequest server request response).response.status
        = HTTP_INTERNAL_SERVER_ERROR ∧
      (handleRequest server request response).log.getLast?
        = some (LogEntry.mk .error (errorText server.codes e))) := by
  constructor
  · intro f g hfg heq
    obtain ⟨cf, sf, rf, hf, hf'⟩ := errorText_data server.codes f
    obtain ⟨cg, sg, rg, hg, hg'⟩ := errorText_data server.codes g
    have hdata := congrArg String.data heq
    rw [hf, hg] at hdata
    have hdata := List.append_cancel_left hdata
    have hsep : ∀ s : Char, (s = ',' ∨ s = '.') → ¬ (s ≠ ',' ∧ s ≠ '.') := by
      intro s hs hn
      rcases hs with hs | hs
      · exact hn.1 hs
      · exact hn.2 hs
    have hsf : sf = ',' ∨ sf = '.' := by
      rcases hf' with ⟨_, _, _, _, _, h, _⟩ | ⟨_, _, _, _, _, h, _⟩ | ⟨_, _, _, h, _⟩ |
        ⟨_, _, h, _⟩ <;> simp [h]
    have hsg : sg = ',' ∨ sg = '.' := by
      rcases hg' with ⟨_, _, _, _, _, h, _⟩ | ⟨_, _, _, _, _, h, _⟩ | ⟨_, _, _, h, _⟩ |
        ⟨_, _, h, _⟩ <;> simp [h]
    obtain ⟨hcode, hs, hr⟩ := append_sep_inj (fun c => c ≠ ',' ∧ c ≠ '.') _ _ _ _ _ _
      (intRepr_chars cf) (intRepr_chars cg) (hsep sf hsf) (hsep sg hsg) hdata
    have hcode := intRepr_injective cf cg hcode
    rcases hf' with ⟨c, d, w, rfl, h1, h2, h3⟩ | ⟨c, d, w, rfl, h1, h2, h3⟩ |
        ⟨w, rfl, h1, h2, h3⟩ | ⟨rfl, h1, h2, h3⟩ <;>
      rcases hg' with ⟨c', d', w', rfl, k1, k2, k3⟩ | ⟨c', d', w', rfl, k1, k2, k3⟩ |
        ⟨w', rfl, k1, k2, k3⟩ | ⟨rfl, k1, k2, k3⟩
    all_goals first
      | exact hfg rfl
      | (rw [h2, k2] at hs; exact absurd hs (by decide))
      | (rw [h1, k1] at hcode; exact hcodes hcode)
      | (rw [h1, k1] at hcode; exact hcodes hcode.symm)
      | (rw [h3, k3] at hr; simp [String.data_append] at hr)
  · intro request response e h
    rw [handleRequest_of_exception server request response e h]
    exact ⟨catchClause_status _ _, by simp⟩

/-- C4, at a `std::exception` whose message is the text of the last catch
clause. -/
theorem C4_origin_recoverable_from_text_witness :
    Sample.lateFailure.codes.STD_EXCEPTION ≠ Sample.lateFailure.codes.UNKNOWN_EXCEPTION ∧
    (Failure.stdException "Unknown exception.").origin ≠ Failure.unknown.origin ∧
    errorText Sample.lateFailure.codes (.stdException "Unknown exception.")
      ≠ errorText Sample.lateFailure.codes .unknown :=
  ⟨by decide, by decide,
    (C4_origin_recoverable_from_text Sample.lateFailure (by decide)).1 _ _ (by decide)⟩

/-! ### C6 -/

theorem processQuery_of_parse_error (server : Server) (request : HTTPServerRequest)
    (response : HTTPServerResponse) (e : Failure)
    (hcall : Call.parse request.body ∈ (processQuery server request response).calls)
    (hparse : server.parse request.body = .error e) :
    (processQuery server request response).exception = some e ∧
    (processQuery server request response).response = response ∧
    (processQuery server request response).calls.getLast? = some (Call.parse request.body) ∧
    Call.OLAPServerQueryToClickhouse ∉ (processQuery server request response).calls ∧
    (∀ query, Call.executeQuery query ∉ (processQuery server request response).calls) := by
  unfold processQuery at hcall ⊢
  simp only [] at hcall ⊢
  repeat' split
  all_goals simp_all

theorem errorText_reportedCode (codes : ErrorCodes) (e : Failure) :
    ∃ rest : String,
      errorText codes e = "Code: " ++ toString (reportedCode codes e) ++ rest ∧
      (rest.data.head? = some ',' ∨ rest.data.head? = some '.') := by
  cases e with
  | Exception c d w =>
    exact ⟨", e.displayText() = " ++ d ++ ", e.what() = " ++ w,
      by simp [errorText, reportedCode, String.append_assoc],
      Or.inl (by simp [String.data_append])⟩
  | PocoException c d w =>
    exact ⟨", e.code() = " ++ toString c ++ ", e.displayText() = " ++ d
        ++ ", e.what() = " ++ w,
      by simp [errorText, reportedCode, String.append_assoc],
      Or.inl (by simp [String.data_append])⟩
  | stdException w =>
    exact ⟨". " ++ w, by simp [errorText, reportedCode, String.append_assoc],
      Or.inr (by simp [String.data_append])⟩
  | unknown =>
    exact ⟨". Unknown exception.", by simp [errorText, reportedCode],
      Or.inr (by simp)⟩

/-- C6, as stated, fails: the parser throws a `Poco::Exception` whose code is
7; the error body begins with `Code: 1000`, the member `POCO_EXCEPTION`, and
not with `Code: 7`. -/
theorem C6_library_failure_body_starts_with_sentinel :
    Sample.parserPoco.parse (Sample.request "/" "q").body
      = .error (.PocoException 7 "SAXParseException" "Exception") ∧
    Call.parse (Sample.request "/" "q").body
      ∈ (processQuery Sample.parserPoco (Sample.request "/" "q")
          (keepAlive (Sample.request "/" "q") .fresh)).calls ∧
    (handleRequest Sample.parserPoco (Sample.request "/" "q") .fresh).response.body
      = "Code: 1000, e.code() = 7, e.displayText() = SAXParseException, e.what() = Exception\n" ∧
    ¬ ∃ rest : String,
      (handleRequest Sample.parserPoco (Sample.request "/" "q") .fresh).response.body
        = "Code: " ++ toString (7 : Int) ++ rest := by
  refine ⟨rfl, by decide, by decide, ?_⟩
  rintro ⟨rest, h⟩
  have h7 : toString (7 : Int) = "7" := by decide
  have hb : (handleRequest Sample.parserPoco (Sample.request "/" "q") .fresh).response.body
      = "Code: 1000, e.code() = 7, e.displayText() = SAXParseException, e.what() = Exception\n" := by
    decide
  rw [hb, h7] at h
  have hc := congrArg (fun s : String => s.data.get? 6) h
  simp [String.data_append] at hc

/-- C6, amended: for every request whose body the parser is given and
rejects, neither the converter nor `executeQuery` is invoked and nothing is
written to the response before the error; the status sent is 500 and the body
is the error text of the catch clause that handles the failure, followed by a
line end.  The text begins with `Code: ` followed by the code carried by the
failure when the failure is a `DB::Exception`, and by the member
`POCO_EXCEPTION`, `STD_EXCEPTION` or `UNKNOWN_EXCEPTION` of `ErrorCodes` when
it is a `Poco::Exception`, a `std::exception` or anything else. -/
theorem C6_parse_failure (server : Server) (request : HTTPServerRequest)
    (response : HTTPServerResponse) (e : Failure)
    (hcall : Call.parse request.body
      ∈ (processQuery server request (keepAlive request response)).calls)
    (hparse : server.parse request.body = .error e)
    (hfresh : response.sent = false) :
    Call.OLAPServerQueryToClickhouse ∉ (handleRequest server request response).calls ∧
    (∀ query, Call.executeQuery query ∉ (handleRequest server request response).calls) ∧
    (handleRequest server request response).response.status = HTTP_INTERNAL_SERVER_ERROR ∧
    (handleRequest server request response).response.sentStatus
      = some HTTP_INTERNAL_SERVER_ERROR ∧
    (handleRequest server request response).response.body
      = response.body ++ errorText server.codes e ++ "\n" ∧
    ∃ rest : String,
      errorText server.codes e
        = "Code: " ++ toString (reportedCode server.codes e) ++ rest ∧
      (rest.data.head? = some ',' ∨ rest.data.head? = some '.') := by
  obtain ⟨hex, hresp, _, hconv, hexec⟩ :=
    processQuery_of_parse_error server request (keepAlive request response) e hcall hparse
  have hsent : (processQuery server request (keepAlive request response)).response.sent
      = false := by
    rw [hresp]
    unfold keepAlive
    split <;> simpa [HTTPServerResponse.sent, HTTPServerResponse.setChunkedTransferEncoding]
      using hfresh
  have hbody : (processQuery server request (keepAlive request response)).response.body
      = response.body := by
    rw [hresp]
    unfold keepAlive
    split <;> rfl
  rw [handleRequest_of_exception server request response e hex]
  refine ⟨hconv, hexec, catchClause_status _ _, ?_, ?_, errorText_reportedCode _ _⟩
  · rw [catchClause_of_not_sent _ _ hsent]
  · rw [catchClause_of_not_sent _ _ hsent]
    simp [hbody, String.append_assoc]

/-- C6, amended, at the request whose parser throws a `Poco::Exception`. -/
theorem C6_parse_failure_witness :
    Call.parse (Sample.request "/" "q").body
      ∈ (processQuery Sample.parserPoco (Sample.request "/" "q")
          (keepAlive (Sample.request "/" "q") .fresh)).calls ∧
    Sample.parserPoco.parse (Sample.request "/" "q").body
      = .error (.PocoException 7 "SAXParseException" "Exception") ∧
    HTTPServerResponse.fresh.sent = false ∧
    (handleRequest Sample.parserPoco (Sample.request "/" "q") .fresh).response.body
      = HTTPServerResponse.fresh.body
          ++ errorText Sample.parserPoco.codes
              (.PocoException 7 "SAXParseException" "Exception") ++ "\n" :=
  ⟨by decide, rfl, by decide,
    (C6_parse_failure Sample.parserPoco (Sample.request "/" "q") .fresh
      (.PocoException 7 "SAXParseException" "Exception") (by decide) rfl
      (by decide)).2.2.2.2.1⟩

/-! ### The path without failure -/

theorem processQuery_of_success (server : Server) (request : HTTPServerRequest)
    (response : HTTPServerResponse)
    (h : (processQuery server request response).exception = none) :
    ∃ (params : server.HTMLForm) (user password : String) (context₁ : server.Context)
      (olap_query : server.QueryParseResult) (query : String) (context₂ : server.Context),
      server.readForm request.uri = .ok params ∧
      (match request.credentials with
        | none => Except.ok (server.get params "user" "default",
            server.get params "password" "")
        | some c => c) = Except.ok (user, password) ∧
      server.setUser (server.setGlobalContext server.global_context server.global_context)
        user password request.clientHost
        (server.get params "quota_key" "") = .ok context₁ ∧
      server.parse request.body = .ok olap_query ∧
      server.OLAPServerQueryToClickhouse olap_query context₁ = .ok (query, context₂) ∧
      (server.executeQuery query context₂).exception = none ∧
      processQuery server request response =
        { response := flush response (server.executeQuery query context₂).flushed,
          log := [LogEntry.mk .trace ("Request URI: " ++ request.uri),
              LogEntry.mk .trace ("Request body: " ++ request.body),
              LogEntry.mk .trace ("Converted query: " ++ query)]
            ++ planLog server (server.executeQuery query context₂).query_plan
                (server.executeQuery query context₂).elapsedSeconds
            ++ quotaLog server (server.executeQuery query context₂).context,
          calls := [Call.setUser user password request.clientHost
                (server.get params "quota_key" ""),
              Call.parse request.body, Call.OLAPServerQueryToClickhouse,
              Call.executeQuery query]
            ++ planCalls server (server.executeQuery query context₂).query_plan
            ++ [Call.getQuota],
          context := some (server.executeQuery query context₂).context,
          query_plan := (server.executeQuery query context₂).query_plan,
          watch := some (server.executeQuery query context₂).elapsedSeconds,
          exception := none } := by
  revert h
  unfold processQuery
  split
  · intro h; simp at h
  · rename_i params hform
    simp only []
    split
    · intro h; simp at h
    · rename_i user password hcred
      split
      · intro h; simp at h
      · rename_i context₁ huser
        split
        · intro h; simp at h
        · rename_i olap_query hparse
          split
          · intro h; simp at h
          · rename_i query context₂ hconv
            split
            · intro h; simp at h
            · rename_i hexec
              intro _
              exact ⟨params, user, password, context₁, olap_query, query, context₂, hform,
                hcred, huser, hparse, hconv, hexec, by simp⟩

theorem processQuery_of_exception (server : Server) (request : HTTPServerRequest)
    (response : HTTPServerResponse) (e : Failure)
    (h : (processQuery server request response).exception = some e) :
    Call.getQuota ∉ (processQuery server request response).calls ∧
    ∀ entry ∈ (processQuery server request response).log, entry.level = .trace := by
  revert h
  unfold processQuery
  simp only []
  repeat' split
  all_goals simp

/-! ### C7 -/

theorem quota_entry_not_in_planLog (server : Server)
    (plan : Option server.BlockInputStream) (t : server.Double) (text : String) :
    LogEntry.mk .info ("Quota:\n" ++ text) ∉ planLog server plan t := by
  intro h
  cases plan with
  | none => simp [planLog] at h
  | some p =>
    simp only [planLog, List.mem_cons] at h
    rcases h with h | h
    · simp at h
    · split at h
      · simp only [List.mem_singleton, LogEntry.mk.injEq, true_and] at h
        have hd := congrArg (fun s : String => s.data.head?) h
        simp [statisticsText, String.data_append] at hd
      · simp at h

theorem quota_entry_mem_quotaLog (server : Server) (context : server.Context)
    (text : String) :
    LogEntry.mk .info ("Quota:\n" ++ text) ∈ quotaLog server context ↔
      (server.empty (server.getQuota context) = false ∧
        text = server.quotaToString (server.getQuota context)) := by
  have hcancel : "Quota:\n" ++ text
        = "Quota:\n" ++ server.quotaToString (server.getQuota context) ↔
      text = server.quotaToString (server.getQuota context) := by
    constructor
    · intro h
      have hd := congrArg String.data h
      simp only [String.data_append] at hd
      exact String.ext (List.append_cancel_left hd)
    · rintro rfl
      rfl
  cases hq : server.empty (server.getQuota context) <;> simp [quotaLog, hq, hcancel]

/-- C7, as stated, fails: the parser throws after `setUser` has produced a
context whose quota snapshot is not empty; the quota is not read and no
`Quota:` entry is emitted. -/
theorem C7_no_quota_entry_after_parse_failure :
    (handleRequest Sample.parserPoco (Sample.request "/?quota_key=k" "q") .fresh).context
      = some ("default", "k") ∧
    Sample.parserPoco.empty (Sample.parserPoco.getQuota ("default", "k")) = false ∧
    LogEntry.mk .info
        ("Quota:\n" ++ Sample.parserPoco.quotaToString
          (Sample.parserPoco.getQuota ("default", "k")))
      ∉ (handleRequest Sample.parserPoco (Sample.request "/?quota_key=k" "q") .fresh).log ∧
    Call.getQuota
      ∉ (handleRequest Sample.parserPoco (Sample.request "/?quota_key=k" "q") .fresh).calls := by
  refine ⟨by rfl, by decide, by decide, by decide⟩

/-- C7, amended: for every request whose pipeline returns without failure,
the quota of the context is read as the last step, and an info-level entry
`Quota:` followed by a line end and its rendering is emitted if and only if
the snapshot is not empty; the context read is the one `executeQuery` left, to
which the handler applies nothing.  For every request whose pipeline fails (in
`setUser`, parsing, conversion or execution), the quota is not read and no
info-level entry is emitted at all. -/
theorem C7_quota_reported_after_success (server : Server) (request : HTTPServerRequest)
    (response : HTTPServerResponse) :
    ((processQuery server request (keepAlive request response)).exception = none →
      ∃ (context₁ : server.Context) (olap_query : server.QueryParseResult)
        (query : String) (context₂ : server.Context),
        server.parse request.body = .ok olap_query ∧
        server.OLAPServerQueryToClickhouse olap_query context₁ = .ok (query, context₂) ∧
        Call.executeQuery query ∈ (handleRequest server request response).calls ∧
        (handleRequest server request response).context
          = some (server.executeQuery query context₂).context ∧
        (handleRequest server request response).calls.getLast? = some Call.getQuota ∧
        ∀ text : String,
          LogEntry.mk .info ("Quota:\n" ++ text)
              ∈ (handleRequest server request response).log ↔
            (server.empty (server.getQuota (server.executeQuery query context₂).context)
                = false ∧
              text = server.quotaToString
                (server.getQuota (server.executeQuery query context₂).context))) ∧
    (∀ e : Failure,
      (processQuery server request (keepAlive request response)).exception = some e →
      Call.getQuota ∉ (handleRequest server request response).calls ∧
      ∀ entry ∈ (handleRequest server request response).log, entry.level ≠ .info) := by
  constructor
  · intro h
    obtain ⟨params, user, password, context₁, olap_query, query, context₂, _, _, _, hp, hq, _, hpq⟩ :=
      processQuery_of_success server request (keepAlive request response) h
    rw [handleRequest_of_success server request response h, hpq]
    refine ⟨context₁, olap_query, query, context₂, hp, hq, by simp, rfl,
      List.getLast?_concat _, ?_⟩
    intro text
    show LogEntry.mk .info ("Quota:\n" ++ text)
        ∈ (([_, _, _] ++ planLog server _ _) ++ quotaLog server _) ++ [_] ↔ _
    rw [List.mem_append, List.mem_append, List.mem_append, quota_entry_mem_quotaLog]
    constructor
    · rintro (((h | h) | h) | h)
      · simp at h
      · exact absurd h (quota_entry_not_in_planLog _ _ _ _)
      · exact h
      · simp only [List.mem_singleton, LogEntry.mk.injEq, true_and] at h
        have hd := congrArg (fun s : String => s.data.head?) h
        simp [String.data_append] at hd
    · intro h
      exact Or.inl (Or.inr h)
  · intro e h
    obtain ⟨hq, hl⟩ := processQuery_of_exception server request (keepAlive request response) e h
    rw [handleRequest_of_exception server request response e h]
    refine ⟨hq, ?_⟩
    intro entry hm
    simp only [List.mem_append, List.mem_singleton] at hm
    rcases hm with hm | hm
    · rw [hl entry hm]
      decide
    · rw [hm]
      simp

/-- C7, amended, at a request that succeeds and at one whose parser throws. -/
theorem C7_quota_reported_after_success_witness :
    (processQuery Sample.threeRows (Sample.request "/?quota_key=k" "q")
        (keepAlive (Sample.request "/?quota_key=k" "q") .fresh)).exception = none ∧
    (processQuery Sample.parserPoco (Sample.request "/?quota_key=k" "q")
        (keepAlive (Sample.request "/?quota_key=k" "q") .fresh)).exception
      = some (.PocoException 7 "SAXParseException" "Exception") ∧
    LogEntry.mk .info "Quota:\nk"
      ∈ (handleRequest Sample.threeRows (Sample.request "/?quota_key=k" "q") .fresh).log ∧
    Call.getQuota
      ∉ (handleRequest Sample.parserPoco (Sample.request "/?quota_key=k" "q") .fresh).calls :=
  ⟨by decide, by decide, by decide,
    ((C7_quota_reported_after_success Sample.parserPoco (Sample.request "/?quota_key=k" "q")
      .fresh).2 (.PocoException 7 "SAXParseException" "Exception") (by decide)).1⟩

/-! ### C8 -/

/-- C8, as stated, fails: two requests that differ only in the `password`
parameter of the URL, and that leave the same response and the same context,
emit different log entries, because the request URI is logged and the
parameter is part of it. -/
theorem C8_password_parameter_is_logged :
    Sample.threeRows.readForm (Sample.request "/?password=a" "q").uri
      = .ok [("password", "a")] ∧
    Sample.threeRows.readForm (Sample.request "/?password=b" "q").uri
      = .ok [("password", "b")] ∧
    (handleRequest Sample.threeRows (Sample.request "/?password=a" "q") .fresh).response
      = (handleRequest Sample.threeRows (Sample.request "/?password=b" "q") .fresh).response ∧
    (handleRequest Sample.threeRows (Sample.request "/?password=a" "q") .fresh).context
      = (handleRequest Sample.threeRows (Sample.request "/?password=b" "q") .fresh).context ∧
    (handleRequest Sample.threeRows (Sample.request "/?password=a" "q") .fresh).log
      ≠ (handleRequest Sample.threeRows (Sample.request "/?password=b" "q") .fresh).log ∧
    LogEntry.mk .trace "Request URI: /?password=a"
      ∈ (handleRequest Sample.threeRows (Sample.request "/?password=a" "q") .fresh).log := by
  refine ⟨by rfl, by rfl, by decide, by rfl, by decide, by decide⟩

/-- C8, amended: the password of the HTTP Basic credentials is never logged:
two requests that differ only in that password, for which `setUser` returns
the same, emit the same sequence of log entries and leave the same response.
A password given as the `password` parameter of the URL is part of the
request URI, which is logged as it is at trace level whenever the form is
constructed without an exception. -/
theorem C8_basic_password_not_logged (server : Server) (request : HTTPServerRequest)
    (response : HTTPServerResponse) (user password₁ password₂ : String)
    (hrun : ∀ params : server.HTMLForm, server.readForm request.uri = .ok params →
      server.setUser (server.setGlobalContext server.global_context server.global_context)
          user password₁ request.clientHost (server.get params "quota_key" "")
        = server.setUser (server.setGlobalContext server.global_context server.global_context)
          user password₂ request.clientHost (server.get params "quota_key" "")) :
    (handleRequest server { request with credentials := some (.ok (user, password₁)) }
        response).log
      = (handleRequest server { request with credentials := some (.ok (user, password₂)) }
        response).log ∧
    (handleRequest server { request with credentials := some (.ok (user, password₁)) }
        response).response
      = (handleRequest server { request with credentials := some (.ok (user, password₂)) }
        response).response ∧
    (∀ params : server.HTMLForm, server.readForm request.uri = .ok params →
      LogEntry.mk .trace ("Request URI: " ++ request.uri)
        ∈ (handleRequest server request response).log) := by
  have hboth :
      (handleRequest server { request with credentials := some (.ok (user, password₁)) }
          response).log
        = (handleRequest server { request with credentials := some (.ok (user, password₂)) }
          response).log ∧
      (handleRequest server { request with credentials := some (.ok (user, password₁)) }
          response).response
        = (handleRequest server { request with credentials := some (.ok (user, password₂)) }
          response).response := by
    rcases hf : server.readForm request.uri with e | params
    · simp [handleRequest, processQuery, keepAlive, hf]
    · have hrun := hrun params hf
      rcases hu : server.setUser
          (server.setGlobalContext server.global_context server.global_context)
          user password₂ request.clientHost (server.get params "quota_key" "") with
        e | context₁
      · have hu₁ := hrun.trans hu
        simp [handleRequest, processQuery, keepAlive, hf, hu, hu₁]
      · have hu₁ := hrun.trans hu
        rcases hp : server.parse request.body with e | olap_query
        · simp [handleRequest, processQuery, keepAlive, hf, hu, hu₁, hp]
        · rcases hq : server.OLAPServerQueryToClickhouse olap_query context₁ with
            e | ⟨query, context₂⟩
          · simp [handleRequest, processQuery, keepAlive, hf, hu, hu₁, hp, hq]
          · rcases hx : (server.executeQuery query context₂).exception with _ | e
            · simp [handleRequest, processQuery, keepAlive, hf, hu, hu₁, hp, hq, hx]
            · simp [handleRequest, processQuery, keepAlive, hf, hu, hu₁, hp, hq, hx]
  refine ⟨hboth.1, hboth.2, ?_⟩
  intro params hf
  have hmem : LogEntry.mk .trace ("Request URI: " ++ request.uri)
      ∈ (processQuery server request (keepAlive request response)).log := by
    unfold processQuery
    simp only [hf]
    repeat' split
    all_goals simp
  unfold handleRequest
  simp only []
  split <;> exact List.mem_append_left _ hmem

/-- C8, amended, at two requests with the passwords `a` and `b`. -/
theorem C8_basic_password_not_logged_witness :
    (∀ params : Sample.threeRows.HTMLForm,
      Sample.threeRows.readForm (Sample.request "/" "q").uri = .ok params →
      Sample.threeRows.setUser
          (Sample.threeRows.setGlobalContext Sample.threeRows.global_context
            Sample.threeRows.global_context)
          "bob" "a" (Sample.request "/" "q").clientHost
          (Sample.threeRows.get params "quota_key" "")
        = Sample.threeRows.setUser
          (Sample.threeRows.setGlobalContext Sample.threeRows.global_context
            Sample.threeRows.global_context)
          "bob" "b" (Sample.request "/" "q").clientHost
          (Sample.threeRows.get params "quota_key" "")) ∧
    (handleRequest Sample.threeRows
        { Sample.request "/" "q" with credentials := some (.ok ("bob", "a")) } .fresh).log
      = (handleRequest Sample.threeRows
        { Sample.request "/" "q" with credentials := some (.ok ("bob", "b")) } .fresh).log ∧
    LogEntry.mk .trace ("Request URI: " ++ (Sample.request "/" "q").uri)
      ∈ (handleRequest Sample.threeRows (Sample.request "/" "q") .fresh).log :=
  ⟨fun _ _ => rfl,
    (C8_basic_password_not_logged Sample.threeRows (Sample.request "/" "q") .fresh
      "bob" "a" "b" (fun _ _ => rfl)).1,
    (C8_basic_password_not_logged Sample.threeRows (Sample.request "/" "q") .fresh
      "bob" "a" "b" (fun _ _ => rfl)).2.2 [] rfl⟩

/-! ### C9 -/

/-- C9, as stated, fails: three rows and three mebibytes read in two seconds
are reported with the rows/sec figure 1, not 1.500: the quotient of rows and
seconds is converted to `size_t` before it is written.  Every value involved
(3, 3145728, 1048576, 2, 1.5) is representable in binary64, so the fractions
of the concrete server compute what `double` computes. -/
theorem C9_rows_per_second_is_truncated :
    (processQuery Sample.threeRows (Sample.request "/" "q")
        (keepAlive (Sample.request "/" "q") .fresh)).exception = none ∧
    (processQuery Sample.threeRows (Sample.request "/" "q")
        (keepAlive (Sample.request "/" "q") .fresh)).query_plan = some (3, 3145728) ∧
    (processQuery Sample.threeRows (Sample.request "/" "q")
        (keepAlive (Sample.request "/" "q") .fresh)).watch = some { num := 2, den := 1 } ∧
    LogEntry.mk .info "Read 3 rows, 3.000 MiB in 2.000 sec., 1 rows/sec., 1.500 MiB/sec."
      ∈ (processQuery Sample.threeRows (Sample.request "/" "q")
          (keepAlive (Sample.request "/" "q") .fresh)).log ∧
    documentedStatisticsText Sample.threeRows 3 3145728 { num := 2, den := 1 }
      = "Read 3 rows, 3.000 MiB in 2.000 sec., 1.500 rows/sec., 1.500 MiB/sec." ∧
    LogEntry.mk .info
        (documentedStatisticsText Sample.threeRows 3 3145728 { num := 2, den := 1 })
      ∉ (processQuery Sample.threeRows (Sample.request "/" "q")
          (keepAlive (Sample.request "/" "q") .fresh)).log := by
  refine ⟨by decide, by rfl, by rfl, by decide, by decide, by decide⟩

theorem unitRoundoff_pos : (0 : ℚ) < unitRoundoff := by
  norm_num [unitRoundoff]

theorem unitRoundoff_le : unitRoundoff ≤ 1 / 8 := by
  norm_num [unitRoundoff]

theorem unitRoundoff_sq_lo : (1 : ℚ) / 2 ≤ (1 - unitRoundoff) ^ 2 := by
  norm_num [unitRoundoff]

theorem unitRoundoff_sq_hi : (1 + unitRoundoff) ^ 2 ≤ (2 : ℚ) := by
  norm_num [unitRoundoff]

theorem ofSizeT_lo (x n : ℚ) (hn : 1 ≤ n) (h : (1 - unitRoundoff) * n ≤ x) :
    1 / 2 ≤ x := by
  have hu := unitRoundoff_le
  have h1 : (1 - unitRoundoff) * 1 ≤ (1 - unitRoundoff) * n :=
    mul_le_mul_of_nonneg_left hn (by linarith)
  linarith

theorem ofSizeT_hi (x n : ℚ) (hn : n < 2 ^ 64) (h : x ≤ (1 + unitRoundoff) * n) :
    x ≤ 2 ^ 65 := by
  have hu := unitRoundoff_le
  have hu0 := unitRoundoff_pos
  have h1 : (1 + unitRoundoff) * n ≤ (1 + unitRoundoff) * 2 ^ 64 :=
    mul_le_mul_of_nonneg_left hn.le (by linarith)
  have h2 : (1 + unitRoundoff) * 2 ^ 64 ≤ 2 * 2 ^ 64 :=
    mul_le_mul_of_nonneg_right (by linarith) (by norm_num)
  have h3 : (2 : ℚ) * 2 ^ 64 = 2 ^ 65 := by norm_num
  linarith

theorem mebibytes_value (server : Server) (value : server.Double → ℚ → Prop)
    (harith : DoubleLaws server value) (B : Nat) (hbytes64 : B < 2 ^ 64) :
    ∃ z₁ : ℚ, value (server.div (server.ofSizeT B) server.mebi) z₁ ∧
      (1 - unitRoundoff) ^ 2 * ((B : ℚ) / 1048576) ≤ z₁ ∧
      z₁ ≤ (1 + unitRoundoff) ^ 2 * ((B : ℚ) / 1048576) := by
  have hu0 := unitRoundoff_pos
  have hu1 := unitRoundoff_le
  have hB0 : (0 : ℚ) ≤ B := Nat.cast_nonneg _
  have hB64 : (B : ℚ) < 2 ^ 64 := by exact_mod_cast hbytes64
  have hlo : (0 : ℚ) ≤ 1 - unitRoundoff := by linarith
  have hhi : (0 : ℚ) ≤ 1 + unitRoundoff := by linarith
  obtain ⟨xB, hvB, hB1, hB2⟩ := harith.ofSizeT B hbytes64
  have hxB0 : 0 ≤ xB := le_trans (mul_nonneg hlo hB0) hB1
  have hrange₁ : xB = 0 ∨ (1 / 2 ^ 200 ≤ xB / 1048576 ∧ xB / 1048576 ≤ 2 ^ 200) := by
    by_cases hzero : B = 0
    · left
      subst hzero
      simp only [Nat.cast_zero, mul_zero] at hB2
      linarith
    · right
      have hB1' : (1 : ℚ) ≤ B := by
        exact_mod_cast Nat.one_le_iff_ne_zero.mpr hzero
      have h1 : (1 : ℚ) / 2 ≤ xB := ofSizeT_lo xB B hB1' hB1
      have h2 : xB ≤ 2 ^ 65 := ofSizeT_hi xB B hB64 hB2
      constructor
      · rw [le_div_iff₀ (by norm_num)]
        have h3 : (1 : ℚ) / 2 ^ 200 * 1048576 ≤ 1 / 2 := by norm_num
        linarith
      · rw [div_le_iff₀ (by norm_num)]
        have h3 : (2 : ℚ) ^ 65 ≤ 2 ^ 200 * 1048576 := by norm_num
        linarith
  obtain ⟨z₁, hvz₁, hz₁a, hz₁b⟩ :=
    harith.div _ _ xB 1048576 hvB harith.mebi hxB0 (by norm_num) hrange₁
  refine ⟨z₁, hvz₁, ?_, ?_⟩
  · have h1 : (1 - unitRoundoff) * ((B : ℚ) / 1048576) ≤ xB / 1048576 := by
      rw [← mul_div_assoc]
      exact div_le_div_of_nonneg_right hB1 (by norm_num)
    calc (1 - unitRoundoff) ^ 2 * ((B : ℚ) / 1048576)
        = (1 - unitRoundoff) * ((1 - unitRoundoff) * ((B : ℚ) / 1048576)) := by ring
      _ ≤ (1 - unitRoundoff) * (xB / 1048576) := mul_le_mul_of_nonneg_left h1 hlo
      _ ≤ z₁ := hz₁a
  · have h1 : xB / 1048576 ≤ (1 + unitRoundoff) * ((B : ℚ) / 1048576) := by
      rw [← mul_div_assoc]
      exact div_le_div_of_nonneg_right hB2 (by norm_num)
    calc z₁ ≤ (1 + unitRoundoff) * (xB / 1048576) := hz₁b
      _ ≤ (1 + unitRoundoff) * ((1 + unitRoundoff) * ((B : ℚ) / 1048576)) :=
          mul_le_mul_of_nonneg_left h1 hhi
      _ = (1 + unitRoundoff) ^ 2 * ((B : ℚ) / 1048576) := by ring

theorem rows_per_second_value (server : Server) (value : server.Double → ℚ → Prop)
    (harith : DoubleLaws server value) (R : Nat) (elapsedSeconds : server.Double) (t : ℚ)
    (hrows : 0 < R) (hrows64 : R < 2 ^ 64)
    (ht : value elapsedSeconds t) (ht0 : 0 < t) (htmax : t ≤ 2 ^ 100)
    (hrps : (R : ℚ) / t < 2 ^ 63) :
    ∃ q : ℚ, value (server.div (server.ofSizeT R) elapsedSeconds) q ∧
      (1 - unitRoundoff) ^ 2 * ((R : ℚ) / t) ≤ q ∧
      q ≤ (1 + unitRoundoff) ^ 2 * ((R : ℚ) / t) ∧ 0 ≤ q ∧ q < 2 ^ 64 := by
  have hu0 := unitRoundoff_pos
  have hu1 := unitRoundoff_le
  have hRq : (1 : ℚ) ≤ R := by exact_mod_cast hrows
  have hlo : (0 : ℚ) ≤ 1 - unitRoundoff := by linarith
  have hhi : (0 : ℚ) ≤ 1 + unitRoundoff := by linarith
  obtain ⟨xR, hvR, hR1, hR2⟩ := harith.ofSizeT R hrows64
  have hxR0 : 0 ≤ xR := le_trans (mul_nonneg hlo (by linarith)) hR1
  have hxR1 : (1 : ℚ) / 2 ≤ xR := ofSizeT_lo xR R hRq hR1
  have hxRt : xR / t ≤ (1 + unitRoundoff) * ((R : ℚ) / t) := by
    rw [← mul_div_assoc]
    exact div_le_div_of_nonneg_right hR2 ht0.le
  have hxRt' : (1 - unitRoundoff) * ((R : ℚ) / t) ≤ xR / t := by
    rw [← mul_div_assoc]
    exact div_le_div_of_nonneg_right hR1 ht0.le
  have hr0 : (0 : ℚ) ≤ (R : ℚ) / t := div_nonneg (by linarith) ht0.le
  have hrange₂ : xR = 0 ∨ (1 / 2 ^ 200 ≤ xR / t ∧ xR / t ≤ 2 ^ 200) := by
    right
    have hsmall : (1 : ℚ) / 2 ^ 200 * t ≤ 1 / 2 ^ 100 := by
      have h1 : (1 : ℚ) / 2 ^ 200 * t ≤ 1 / 2 ^ 200 * 2 ^ 100 :=
        mul_le_mul_of_nonneg_left htmax (by positivity)
      have h2 : (1 : ℚ) / 2 ^ 200 * 2 ^ 100 = 1 / 2 ^ 100 := by norm_num
      linarith
    have hpow : (1 : ℚ) / 2 ^ 100 ≤ 1 / 2 := by norm_num
    have hbig : (2 : ℚ) * 2 ^ 63 ≤ 2 ^ 200 := by norm_num
    constructor
    · rw [le_div_iff₀ ht0]
      linarith
    · have h1 : (1 + unitRoundoff) * ((R : ℚ) / t) ≤ 2 * ((R : ℚ) / t) :=
        mul_le_mul_of_nonneg_right (by linarith) hr0
      linarith
  obtain ⟨q, hvq, hqa, hqb⟩ := harith.div _ _ xR t hvR ht hxR0 ht0 hrange₂
  have hqlo : (1 - unitRoundoff) ^ 2 * ((R : ℚ) / t) ≤ q := by
    calc (1 - unitRoundoff) ^ 2 * ((R : ℚ) / t)
        = (1 - unitRoundoff) * ((1 - unitRoundoff) * ((R : ℚ) / t)) := by ring
      _ ≤ (1 - unitRoundoff) * (xR / t) := mul_le_mul_of_nonneg_left hxRt' hlo
      _ ≤ q := hqa
  have hqhi : q ≤ (1 + unitRoundoff) ^ 2 * ((R : ℚ) / t) := by
    calc q ≤ (1 + unitRoundoff) * (xR / t) := hqb
      _ ≤ (1 + unitRoundoff) * ((1 + unitRoundoff) * ((R : ℚ) / t)) :=
          mul_le_mul_of_nonneg_left hxRt hhi
      _ = (1 + unitRoundoff) ^ 2 * ((R : ℚ) / t) := by ring
  have hq0 : 0 ≤ q := le_trans (mul_nonneg (pow_nonneg hlo 2) hr0) hqlo
  have hq64 : q < 2 ^ 64 := by
    have hsq := unitRoundoff_sq_hi
    have h1 : (1 + unitRoundoff) ^ 2 * ((R : ℚ) / t) ≤ 2 * ((R : ℚ) / t) :=
      mul_le_mul_of_nonneg_right hsq hr0
    have h2 : (2 : ℚ) * 2 ^ 63 = 2 ^ 64 := by norm_num
    linarith
  exact ⟨q, hvq, hqlo, hqhi, hq0, hq64⟩

theorem mebibytes_per_second_value (server : Server) (value : server.Double → ℚ → Prop)
    (harith : DoubleLaws server value) (B : Nat) (mebibytes elapsedSeconds : server.Double)
    (z₁ t : ℚ) (hbytes64 : B < 2 ^ 64) (hvz₁ : value mebibytes z₁)
    (hz₁lo : (1 - unitRoundoff) ^ 2 * ((B : ℚ) / 1048576) ≤ z₁)
    (hz₁hi : z₁ ≤ (1 + unitRoundoff) ^ 2 * ((B : ℚ) / 1048576))
    (ht : value elapsedSeconds t) (ht0 : 0 < t) (htmax : t ≤ 2 ^ 100)
    (hinv : 1 / t < 2 ^ 63) :
    ∃ z₂ : ℚ, value (server.div mebibytes elapsedSeconds) z₂ ∧
      (1 - unitRoundoff) ^ 3 * ((B : ℚ) / 1048576 / t) ≤ z₂ ∧
      z₂ ≤ (1 + unitRoundoff) ^ 3 * ((B : ℚ) / 1048576 / t) ∧ 0 ≤ z₁ ∧ 0 ≤ z₂ := by
  have hu0 := unitRoundoff_pos
  have hu1 := unitRoundoff_le
  have hB0 : (0 : ℚ) ≤ B := Nat.cast_nonneg _
  have hB64 : (B : ℚ) < 2 ^ 64 := by exact_mod_cast hbytes64
  have hlo : (0 : ℚ) ≤ 1 - unitRoundoff := by linarith
  have hhi : (0 : ℚ) ≤ 1 + unitRoundoff := by linarith
  have hb0 : (0 : ℚ) ≤ (B : ℚ) / 1048576 := div_nonneg hB0 (by norm_num)
  have hz₁0 : 0 ≤ z₁ := le_trans (mul_nonneg (pow_nonneg hlo 2) hb0) hz₁lo
  have hz₁t : z₁ / t ≤ (1 + unitRoundoff) ^ 2 * ((B : ℚ) / 1048576 / t) := by
    rw [← mul_div_assoc]
    exact div_le_div_of_nonneg_right hz₁hi ht0.le
  have hz₁t' : (1 - unitRoundoff) ^ 2 * ((B : ℚ) / 1048576 / t) ≤ z₁ / t := by
    rw [← mul_div_assoc]
    exact div_le_div_of_nonneg_right hz₁lo ht0.le
  have hs0 : (0 : ℚ) ≤ (B : ℚ) / 1048576 / t := div_nonneg hb0 ht0.le
  have hrange₃ : z₁ = 0 ∨ (1 / 2 ^ 200 ≤ z₁ / t ∧ z₁ / t ≤ 2 ^ 200) := by
    by_cases hzero : B = 0
    · left
      subst hzero
      simp only [Nat.cast_zero, zero_div, mul_zero] at hz₁hi
      linarith
    · right
      have hB1' : (1 : ℚ) ≤ B := by
        exact_mod_cast Nat.one_le_iff_ne_zero.mpr hzero
      have hb1 : (1 : ℚ) / 1048576 ≤ (B : ℚ) / 1048576 :=
        div_le_div_of_nonneg_right hB1' (by norm_num)
      have hb2 : (B : ℚ) / 1048576 ≤ 2 ^ 44 := by
        rw [div_le_iff₀ (by norm_num)]
        have h3 : (2 : ℚ) ^ 64 = 2 ^ 44 * 1048576 := by norm_num
        linarith
      have hsq := unitRoundoff_sq_lo
      have hsq' := unitRoundoff_sq_hi
      have h1 : (1 : ℚ) / 2 ^ 21 ≤ z₁ := by
        have h3 : (1 : ℚ) / 2 * (1 / 1048576)
            ≤ (1 - unitRoundoff) ^ 2 * ((B : ℚ) / 1048576) :=
          mul_le_mul hsq hb1 (by norm_num) (pow_nonneg hlo 2)
        have h4 : (1 : ℚ) / 2 * (1 / 1048576) = 1 / 2 ^ 21 := by norm_num
        linarith
      have h2 : z₁ ≤ 2 ^ 45 := by
        have h3 : (1 + unitRoundoff) ^ 2 * ((B : ℚ) / 1048576) ≤ 2 * 2 ^ 44 :=
          mul_le_mul hsq' hb2 hb0 (by norm_num)
        have h4 : (2 : ℚ) * 2 ^ 44 = 2 ^ 45 := by norm_num
        linarith
      have hsmall : (1 : ℚ) / 2 ^ 200 * t ≤ 1 / 2 ^ 100 := by
        have h3 : (1 : ℚ) / 2 ^ 200 * t ≤ 1 / 2 ^ 200 * 2 ^ 100 :=
          mul_le_mul_of_nonneg_left htmax (by positivity)
        have h4 : (1 : ℚ) / 2 ^ 200 * 2 ^ 100 = 1 / 2 ^ 100 := by norm_num
        linarith
      have hpow : (1 : ℚ) / 2 ^ 100 ≤ 1 / 2 ^ 21 := by norm_num
      constructor
      · rw [le_div_iff₀ ht0]
        linarith
      · have hmul : z₁ / t = z₁ * (1 / t) := by ring
        rw [hmul]
        have hinv0 : 0 ≤ 1 / t := by positivity
        have h3 : z₁ * (1 / t) ≤ 2 ^ 45 * 2 ^ 63 :=
          mul_le_mul h2 hinv.le hinv0 (by norm_num)
        have h4 : (2 : ℚ) ^ 45 * 2 ^ 63 ≤ 2 ^ 200 := by norm_num
        linarith
  obtain ⟨z₂, hvz₂, hz₂a, hz₂b⟩ := harith.div _ _ z₁ t hvz₁ ht hz₁0 ht0 hrange₃
  have hz₂lo : (1 - unitRoundoff) ^ 3 * ((B : ℚ) / 1048576 / t) ≤ z₂ := by
    calc (1 - unitRoundoff) ^ 3 * ((B : ℚ) / 1048576 / t)
        = (1 - unitRoundoff) * ((1 - unitRoundoff) ^ 2 * ((B : ℚ) / 1048576 / t)) := by ring
      _ ≤ (1 - unitRoundoff) * (z₁ / t) := mul_le_mul_of_nonneg_left hz₁t' hlo
      _ ≤ z₂ := hz₂a
  have hz₂hi : z₂ ≤ (1 + unitRoundoff) ^ 3 * ((B : ℚ) / 1048576 / t) := by
    calc z₂ ≤ (1 + unitRoundoff) * (z₁ / t) := hz₂b
      _ ≤ (1 + unitRoundoff) * ((1 + unitRoundoff) ^ 2 * ((B : ℚ) / 1048576 / t)) :=
          mul_le_mul_of_nonneg_left hz₁t hhi
      _ = (1 + unitRoundoff) ^ 3 * ((B : ℚ) / 1048576 / t) := by ring
  have hz₂0 : 0 ≤ z₂ := le_trans (mul_nonneg (pow_nonneg hlo 3) hs0) hz₂lo
  exact ⟨z₂, hvz₂, hz₂lo, hz₂hi, hz₁0, hz₂0⟩

/-- C9, amended: when `processQuery` returns with a plan that reports rows
`R > 0` and bytes `B`, and the stopwatch reads a finite `T > 0` seconds with
`T ≤ 2 ^ 100` and `R / T < 2 ^ 63` (so that the conversion to `size_t` is
defined), it emits the info-level entry
`Read R rows, <mib> MiB in <sec> sec., <rps> rows/sec., <mibps> MiB/sec.`
in which `mib`, `sec` and `mibps` are numerals with three decimals nearest to
`B / 1048576`, `T` and `B / 1048576 / T`, and `rps` is a whole number, `R / T`
with the fractional part dropped; the quotients are computed in `double`, each
operation within the relative error `unitRoundoff`. -/
theorem C9_statistics_entry (server : Server) (value : server.Double → ℚ → Prop)
    (request : HTTPServerRequest) (response : HTTPServerResponse)
    (plan : server.BlockInputStream) (elapsedSeconds : server.Double) (t : ℚ)
    (harith : DoubleLaws server value)
    (h : (processQuery server request response).exception = none)
    (hplan : (processQuery server request response).query_plan = some plan)
    (hwatch : (processQuery server request response).watch = some elapsedSeconds)
    (hrows : 0 < (server.getLeafRowsBytes plan).1)
    (hrows64 : (server.getLeafRowsBytes plan).1 < 2 ^ 64)
    (hbytes64 : (server.getLeafRowsBytes plan).2 < 2 ^ 64)
    (ht : value elapsedSeconds t) (ht0 : 0 < t) (htmax : t ≤ 2 ^ 100)
    (hrps : ((server.getLeafRowsBytes plan).1 : ℚ) / t < 2 ^ 63) :
    ∃ mib sec rps mibps : Nat,
      LogEntry.mk .info
          ("Read " ++ toString (server.getLeafRowsBytes plan).1 ++ " rows, "
            ++ decimal3 mib ++ " MiB in " ++ decimal3 sec ++ " sec., "
            ++ toString rps ++ " rows/sec., " ++ decimal3 mibps ++ " MiB/sec.")
        ∈ (processQuery server request response).log ∧
      ((1 - unitRoundoff) ^ 2 * (((server.getLeafRowsBytes plan).2 : ℚ) / 1048576) * 1000
            - 1 / 2 ≤ mib ∧
        (mib : ℚ) ≤ (1 + unitRoundoff) ^ 2
            * (((server.getLeafRowsBytes plan).2 : ℚ) / 1048576) * 1000 + 1 / 2) ∧
      (1000 * t - 1 / 2 ≤ sec ∧ (sec : ℚ) ≤ 1000 * t + 1 / 2) ∧
      ((1 - unitRoundoff) ^ 2 * (((server.getLeafRowsBytes plan).1 : ℚ) / t) - 1 < rps ∧
        (rps : ℚ) ≤ (1 + unitRoundoff) ^ 2 * (((server.getLeafRowsBytes plan).1 : ℚ) / t)) ∧
      ((1 - unitRoundoff) ^ 3 * (((server.getLeafRowsBytes plan).2 : ℚ) / 1048576 / t) * 1000
            - 1 / 2 ≤ mibps ∧
        (mibps : ℚ) ≤ (1 + unitRoundoff) ^ 3
            * (((server.getLeafRowsBytes plan).2 : ℚ) / 1048576 / t) * 1000 + 1 / 2) := by
  -- the path taken
  obtain ⟨params, user, password, context₁, olap_query, query, context₂, _, _, _, _, _, _,
      hpq⟩ := processQuery_of_success server request response h
  rw [hpq] at hplan hwatch ⊢
  simp only [Option.some.injEq] at hplan hwatch
  generalize hR : (server.getLeafRowsBytes plan).1 = R at hrows hrows64 hrps ⊢
  generalize hB : (server.getLeafRowsBytes plan).2 = B at hbytes64 ⊢
  have hRq : (1 : ℚ) ≤ R := by exact_mod_cast hrows
  have hinv : 1 / t < 2 ^ 63 := by
    have h1 : 1 / t ≤ (R : ℚ) / t := div_le_div_of_nonneg_right hRq ht0.le
    linarith
  -- the values of the three quotients
  obtain ⟨z₁, hvz₁, hz₁lo, hz₁hi⟩ := mebibytes_value server value harith B hbytes64
  obtain ⟨q, hvq, hqlo, hqhi, hq0, hq64⟩ :=
    rows_per_second_value server value harith R elapsedSeconds t hrows hrows64 ht ht0 htmax
      hrps
  obtain ⟨z₂, hvz₂, hz₂lo, hz₂hi, hz₁0, hz₂0⟩ :=
    mebibytes_per_second_value server value harith B _ elapsedSeconds z₁ t hbytes64 hvz₁
      hz₁lo hz₁hi ht ht0 htmax hinv
  -- the whole number and the three numerals
  obtain ⟨hrps₁, hrps₂⟩ := harith.toSizeT _ q hvq hq0 hq64
  obtain ⟨mib, hmib, hmib₁, hmib₂⟩ := harith.fixed3 _ z₁ hvz₁ hz₁0
  obtain ⟨sec, hsec, hsec₁, hsec₂⟩ := harith.fixed3 _ t ht ht0.le
  obtain ⟨mibps, hmibps, hmibps₁, hmibps₂⟩ := harith.fixed3 _ z₂ hvz₂ hz₂0
  refine ⟨mib, sec, server.toSizeT (server.div (server.ofSizeT R) elapsedSeconds), mibps,
    ?_, ⟨by linarith, by linarith⟩, ⟨by linarith, by linarith⟩,
    ⟨by linarith, by linarith⟩, ⟨by linarith, by linarith⟩⟩
  have hne : R ≠ 0 := Nat.pos_iff_ne_zero.mp hrows
  simp [hplan, hwatch, planLog, statisticsText, hR, hB, hne, hmib, hsec, hmibps]

theorem Sample.thousandths_near (a : Sample.Fraction) (h : a.den ≠ 0) :
    (a.thousandths : ℚ) - 1 / 2 ≤ 1000 * ((a.num : ℚ) / (a.den : ℚ)) ∧
    1000 * ((a.num : ℚ) / (a.den : ℚ)) ≤ (a.thousandths : ℚ) + 1 / 2 := by
  have hden : (0 : ℚ) < (a.den : ℚ) := by
    exact_mod_cast Nat.pos_of_ne_zero h
  have hsplit : a.den * (a.num * 1000 / a.den) + a.num * 1000 % a.den = a.num * 1000 :=
    Nat.div_add_mod _ _
  have hmod : a.num * 1000 % a.den < a.den := Nat.mod_lt _ (Nat.pos_of_ne_zero h)
  have hsplit' : (a.den : ℚ) * ((a.num * 1000 / a.den : Nat) : ℚ)
      + ((a.num * 1000 % a.den : Nat) : ℚ) = (a.num : ℚ) * 1000 := by
    exact_mod_cast hsplit
  have hmod' : ((a.num * 1000 % a.den : Nat) : ℚ) < (a.den : ℚ) := by
    exact_mod_cast hmod
  have hmod0 : (0 : ℚ) ≤ ((a.num * 1000 % a.den : Nat) : ℚ) := Nat.cast_nonneg _
  have hval : 1000 * ((a.num : ℚ) / (a.den : ℚ))
      = ((a.num * 1000 / a.den : Nat) : ℚ)
        + ((a.num * 1000 % a.den : Nat) : ℚ) / (a.den : ℚ) := by
    field_simp
    linarith
  rw [hval]
  unfold Sample.Fraction.thousandths
  simp only []
  split
  · rename_i hcond
    have hhalf : (a.den : ℚ) ≤ 2 * ((a.num * 1000 % a.den : Nat) : ℚ) := by
      rcases hcond with hc | ⟨hc, _⟩
      · have : a.den ≤ 2 * (a.num * 1000 % a.den) := Nat.le_of_lt hc
        exact_mod_cast this
      · have : a.den ≤ 2 * (a.num * 1000 % a.den) := Nat.le_of_eq hc
        exact_mod_cast this
    have h1 : (1 : ℚ) / 2 ≤ ((a.num * 1000 % a.den : Nat) : ℚ) / (a.den : ℚ) := by
      rw [le_div_iff₀ hden]
      linarith
    have h2 : ((a.num * 1000 % a.den : Nat) : ℚ) / (a.den : ℚ) ≤ 1 := by
      rw [div_le_iff₀ hden]
      linarith
    push_cast
    constructor <;> linarith
  · rename_i hcond
    have hhalf : 2 * ((a.num * 1000 % a.den : Nat) : ℚ) ≤ (a.den : ℚ) := by
      have : 2 * (a.num * 1000 % a.den) ≤ a.den := by
        by_contra hlt
        exact hcond (Or.inl (Nat.lt_of_not_le hlt))
      exact_mod_cast this
    have h1 : ((a.num * 1000 % a.den : Nat) : ℚ) / (a.den : ℚ) ≤ 1 / 2 := by
      rw [div_le_iff₀ hden]
      linarith
    have h2 : (0 : ℚ) ≤ ((a.num * 1000 % a.den : Nat) : ℚ) / (a.den : ℚ) :=
      div_nonneg hmod0 hden.le
    constructor <;> linarith

theorem Sample.doubleLaws (parse : String → Except Failure String)
    (executeQuery : String → String × String → Sample.Result) :
    DoubleLaws (Sample.server parse executeQuery) Sample.value where
  ofSizeT := by
    intro n _
    have hu0 := unitRoundoff_pos
    have hn : (0 : ℚ) ≤ n := Nat.cast_nonneg _
    refine ⟨n, ⟨by simp [Sample.server], by simp [Sample.server]⟩, ?_, ?_⟩
    · nlinarith
    · nlinarith
  mebi := ⟨by simp [Sample.server], by simp [Sample.server]⟩
  div := by
    rintro a b x y ⟨ha, rfl⟩ ⟨hb, rfl⟩ hx hy _
    have hu0 := unitRoundoff_pos
    have had : (0 : ℚ) < (a.den : ℚ) := by exact_mod_cast Nat.pos_of_ne_zero ha
    have hbd : (0 : ℚ) < (b.den : ℚ) := by exact_mod_cast Nat.pos_of_ne_zero hb
    have hbn : b.num ≠ 0 := by
      intro h0
      rw [h0] at hy
      simp at hy
    have hbn' : (0 : ℚ) < (b.num : ℚ) := by exact_mod_cast Nat.pos_of_ne_zero hbn
    have hz : (0 : ℚ) ≤ (a.num : ℚ) / (a.den : ℚ) / ((b.num : ℚ) / (b.den : ℚ)) :=
      div_nonneg hx hy.le
    refine ⟨(a.num : ℚ) / (a.den : ℚ) / ((b.num : ℚ) / (b.den : ℚ)), ⟨?_, ?_⟩, ?_, ?_⟩
    · show a.den * b.num ≠ 0
      exact Nat.mul_ne_zero ha hbn
    · show _ = (((a.num * b.den : Nat) : ℚ)) / (((a.den * b.num : Nat) : ℚ))
      push_cast
      field_simp
    · nlinarith
    · nlinarith
  toSizeT := by
    rintro d x ⟨hd, rfl⟩ _ _
    have hden : (0 : ℚ) < (d.den : ℚ) := by exact_mod_cast Nat.pos_of_ne_zero hd
    have hsplit : d.den * (d.num / d.den) + d.num % d.den = d.num := Nat.div_add_mod _ _
    have hmod : d.num % d.den < d.den := Nat.mod_lt _ (Nat.pos_of_ne_zero hd)
    have hsplit' : (d.den : ℚ) * ((d.num / d.den : Nat) : ℚ) + ((d.num % d.den : Nat) : ℚ)
        = (d.num : ℚ) := by
      exact_mod_cast hsplit
    have hmod' : ((d.num % d.den : Nat) : ℚ) < (d.den : ℚ) := by exact_mod_cast hmod
    have hmod0 : (0 : ℚ) ≤ ((d.num % d.den : Nat) : ℚ) := Nat.cast_nonneg _
    constructor
    · show ((d.num / d.den : Nat) : ℚ) ≤ _
      rw [le_div_iff₀ hden]
      linarith
    · show _ < ((d.num / d.den : Nat) : ℚ) + 1
      rw [div_lt_iff₀ hden]
      linarith
  fixed3 := by
    rintro d x ⟨hd, rfl⟩ _
    refine ⟨d.thousandths, ?_, Sample.thousandths_near d hd⟩
    show Sample.Fraction.fixed3 d = _
    simp [Sample.Fraction.fixed3, hd]

/-- C9, amended, at three rows and three mebibytes read in two seconds. -/
theorem C9_statistics_entry_witness :
    DoubleLaws Sample.threeRows Sample.value ∧
    (processQuery Sample.threeRows (Sample.request "/" "q") .fresh).exception = none ∧
    (processQuery Sample.threeRows (Sample.request "/" "q") .fresh).query_plan
      = some (3, 3145728) ∧
    (processQuery Sample.threeRows (Sample.request "/" "q") .fresh).watch
      = some { num := 2, den := 1 } ∧
    0 < (Sample.threeRows.getLeafRowsBytes (3, 3145728)).1 ∧
    (Sample.threeRows.getLeafRowsBytes (3, 3145728)).1 < 2 ^ 64 ∧
    (Sample.threeRows.getLeafRowsBytes (3, 3145728)).2 < 2 ^ 64 ∧
    Sample.value { num := 2, den := 1 } 2 ∧
    (0 : ℚ) < 2 ∧ (2 : ℚ) ≤ 2 ^ 100 ∧
    ((Sample.threeRows.getLeafRowsBytes (3, 3145728)).1 : ℚ) / (2 : ℚ) < 2 ^ 63 ∧
    ∃ mib sec rps mibps : Nat,
      LogEntry.mk .info
          ("Read " ++ toString (Sample.threeRows.getLeafRowsBytes (3, 3145728)).1
            ++ " rows, " ++ decimal3 mib ++ " MiB in " ++ decimal3 sec ++ " sec., "
            ++ toString rps ++ " rows/sec., " ++ decimal3 mibps ++ " MiB/sec.")
        ∈ (processQuery Sample.threeRows (Sample.request "/" "q") .fresh).log ∧
      ((1 - unitRoundoff) ^ 2
            * (((Sample.threeRows.getLeafRowsBytes (3, 3145728)).2 : ℚ) / 1048576) * 1000
            - 1 / 2 ≤ mib ∧
        (mib : ℚ) ≤ (1 + unitRoundoff) ^ 2
            * (((Sample.threeRows.getLeafRowsBytes (3, 3145728)).2 : ℚ) / 1048576) * 1000
            + 1 / 2) ∧
      (1000 * (2 : ℚ) - 1 / 2 ≤ sec ∧ (sec : ℚ) ≤ 1000 * (2 : ℚ) + 1 / 2) ∧
      ((1 - unitRoundoff) ^ 2
            * (((Sample.threeRows.getLeafRowsBytes (3, 3145728)).1 : ℚ) / (2 : ℚ)) - 1 < rps ∧
        (rps : ℚ) ≤ (1 + unitRoundoff) ^ 2
            * (((Sample.threeRows.getLeafRowsBytes (3, 3145728)).1 : ℚ) / (2 : ℚ))) ∧
      ((1 - unitRoundoff) ^ 3
            * (((Sample.threeRows.getLeafRowsBytes (3, 3145728)).2 : ℚ) / 1048576 / (2 : ℚ))
            * 1000 - 1 / 2 ≤ mibps ∧
        (mibps : ℚ) ≤ (1 + unitRoundoff) ^ 3
            * (((Sample.threeRows.getLeafRowsBytes (3, 3145728)).2 : ℚ) / 1048576 / (2 : ℚ))
            * 1000 + 1 / 2) :=
  ⟨Sample.doubleLaws _ _, by decide, by rfl, by rfl, by decide, by decide, by decide,
    ⟨by decide, by norm_num⟩, by norm_num, by norm_num,
    (show ((3 : Nat) : ℚ) / 2 < 2 ^ 63 by norm_num),
    C9_statistics_entry Sample.threeRows Sample.value (Sample.request "/" "q") .fresh
      (3, 3145728) { num := 2, den := 1 } 2 (Sample.doubleLaws _ _) (by decide) (by rfl)
      (by rfl) (by decide) (by decide) (by decide) ⟨by decide, by norm_num⟩ (by norm_num)
      (by norm_num) (show ((3 : Nat) : ℚ) / 2 < 2 ^ 63 by norm_num)⟩

/-! ### C10 -/

theorem quotaLog_filter_info (server : Server) (context : server.Context) :
    (quotaLog server context).filter (fun entry => entry.level = .info)
      = quotaLog server context := by
  rw [List.filter_eq_self]
  intro entry hm
  simp [quotaLog_level server context entry hm]

theorem quotaLog_filter_debug (server : Server) (context : server.Context) :
    (quotaLog server context).filter (fun entry => entry.level = .debug) = [] := by
  rw [List.filter_eq_nil_iff]
  intro entry hm
  simp [quotaLog_level server context entry hm]

/-- C10: when `processQuery` returns without failure, its debug-level entries
are the plan dump exactly when a plan exists, and its info-level entries are
the statistics entry, exactly when a plan exists and reports a nonzero row
count, followed by the quota entries; when no plan exists or the row count is
zero, the log does not depend on the division, on the conversion to `size_t`
or on the formatting of `double` values. -/
theorem C10_statistics_only_for_nonzero_rows (server : Server)
    (request : HTTPServerRequest) (response : HTTPServerResponse)
    (h : (processQuery server request response).exception = none) :
    (processQuery server request response).log.filter (fun entry => entry.level = .debug)
      = (match (processQuery server request response).query_plan with
        | some plan => [LogEntry.mk .debug ("Query pipeline:\n" ++ server.dumpTree plan)]
        | none => []) ∧
    (∃ (elapsedSeconds : server.Double) (context : server.Context),
      (processQuery server request response).watch = some elapsedSeconds ∧
      (processQuery server request response).context = some context ∧
      (processQuery server request response).log.filter (fun entry => entry.level = .info)
        = (match (processQuery server request response).query_plan with
          | some plan =>
            if (server.getLeafRowsBytes plan).1 ≠ 0 then
              [LogEntry.mk .info
                (statisticsText server (server.getLeafRowsBytes plan).1
                  (server.getLeafRowsBytes plan).2 elapsedSeconds)]
            else []
          | none => [])
          ++ quotaLog server context) ∧
    (((processQuery server request response).query_plan = none ∨
        ∃ plan, (processQuery server request response).query_plan = some plan ∧
          (server.getLeafRowsBytes plan).1 = 0) →
      ∀ (div : server.Double → server.Double → server.Double)
        (toSizeT : server.Double → Nat) (fixed3 : server.Double → String),
        (processQuery { server with div := div, toSizeT := toSizeT, fixed3 := fixed3 }
            request response).log
          = (processQuery server request response).log) := by
  obtain ⟨params, user, password, context₁, olap_query, query, context₂, hf, hc, hu, hp, hq, hx, hpq⟩ :=
    processQuery_of_success server request response h
  refine ⟨?_, ⟨(server.executeQuery query context₂).elapsedSeconds,
    (server.executeQuery query context₂).context, ?_, ?_, ?_⟩, ?_⟩
  · rw [hpq]
    simp only [List.filter_append, quotaLog_filter_debug, List.append_nil]
    cases (server.executeQuery query context₂).query_plan with
    | none => simp [planLog]
    | some plan =>
      by_cases hr : (server.getLeafRowsBytes plan).1 = 0 <;> simp [planLog, hr]
  · rw [hpq]
  · rw [hpq]
  · rw [hpq]
    simp only [List.filter_append, quotaLog_filter_info]
    cases (server.executeQuery query context₂).query_plan with
    | none => simp [planLog]
    | some plan =>
      by_cases hr : (server.getLeafRowsBytes plan).1 = 0 <;> simp [planLog, hr]
  · intro hplan div toSizeT fixed3
    rw [hpq] at hplan ⊢
    simp only [processQuery, hf, hc, hu, hp, hq, hx]
    rcases hplan with hplan | ⟨plan, hplan, hr⟩
    · simp only [] at hplan
      simp [hplan, planLog, quotaLog]
    · simp only [] at hplan
      simp [hplan, planLog, quotaLog, hr]

/-- C10, at a request whose plan read no rows. -/
theorem C10_statistics_only_for_nonzero_rows_witness :
    (processQuery Sample.noRows (Sample.request "/" "q") .fresh).exception = none ∧
    (processQuery Sample.noRows (Sample.request "/" "q") .fresh).log.filter
        (fun entry => entry.level = .debug)
      = (match (processQuery Sample.noRows (Sample.request "/" "q") .fresh).query_plan with
        | some plan =>
          [LogEntry.mk .debug ("Query pipeline:\n" ++ Sample.noRows.dumpTree plan)]
        | none => []) :=
  ⟨by decide,
    (C10_statistics_only_for_nonzero_rows Sample.noRows (Sample.request "/" "q") .fresh
      (by decide)).1⟩


end DB
